import Mathlib

/-!
# CellGLView: view state, transform math and input dispatch

A shallow embedding of `src/viewOpenGL/CellGLView.cpp`.

Conventions of the embedding

* `qreal` values are rationals (`ℚ`); `int` values are integers (`Int`),
  pixel coordinates being far away from the limits of a machine `int`.
* The recompute of the scale factors (`setTransformZoom`, with the
  `QTransform::mapRect` of the scene and the fill scale) is embedded in
  `double` arithmetic: every sum, product and quotient is rounded to the
  nearest `double` (`roundDouble`, IEEE 754 binary64, ties to even).  The
  matrices themselves, the mapping of points and the pan are kept in exact
  arithmetic.
* Qt value types (`QPoint`, `QPointF`, `QSizeF`, `QRect`, `QRectF`, `QTransform`)
  are embedded with the fields and the arithmetic of the Qt 5 sources; fuzzy
  comparisons of Qt are exact comparisons here.  `QTransform` is the affine
  part of the matrix (row-vector convention, a point is multiplied from the
  left).
* Rendering nodes are referred to by address (`NodePtr`, `0` is the null
  pointer); the objects behind the addresses are given by a function
  `NodePtr → GraphicItemGL`.
* `update()` posts an expose event; the view state counts the posted events in
  the field `updates`.
* Calls into the nodes (draw, mouse handlers, selection) are returned as a
  list of `Delivery` values, in call order.
-/

namespace STViewer

/-! ## Qt value types -/

/-- Truncation towards zero, the conversion `int(d)` of a `double`. -/
def truncInt (d : ℚ) : Int := if 0 ≤ d then ⌊d⌋ else ⌈d⌉

/-- Qt 5 `qRound(double)`. -/
def qRound (d : ℚ) : Int :=
  if 0 ≤ d then truncInt (d + 1 / 2)
  else truncInt (d - ((truncInt (d - 1) : Int) : ℚ) + 1 / 2) + truncInt (d - 1)

/-! ## Double arithmetic -/

/-- Rounding of a non-negative rational to an integer: the nearest one, and
of two nearest ones the even one. -/
def roundHalfEven (m : ℚ) : Int :=
  let f := ⌊m⌋
  let d := m - f
  if d < 1 / 2 then f else if 1 / 2 < d then f + 1 else if f % 2 = 0 then f else f + 1

/-- Power of two with an integer exponent. -/
def pow2 (k : Int) : ℚ :=
  if 0 ≤ k then ((2 ^ k.toNat : ℕ) : ℚ) else ((2 ^ (-k).toNat : ℕ) : ℚ)⁻¹

/-- Floor of the binary logarithm of a positive integer `n ≤ fuel`. -/
def natLog2 : Nat → Nat → Nat
  | 0, _ => 0
  | fuel + 1, n => if 2 ≤ n then natLog2 fuel (n / 2) + 1 else 0

/-- Floor of the binary logarithm of a positive rational. -/
def floorLog2 (x : ℚ) : Int :=
  let e : Int := (natLog2 x.num.natAbs x.num.natAbs : Int) - (natLog2 x.den x.den : Int)
  if pow2 e ≤ x then e else e - 1

/-- Exponent of the unit in the last place of a `double` of the magnitude of
the positive rational `x`: a `double` has 53 significant bits, and no unit is
smaller than `2 ^ (-1074)`. -/
def ulpExponent (x : ℚ) : Int := max (floorLog2 x - 52) (-1074)

/-- The `double` nearest to a rational: IEEE 754 binary64, round to nearest,
ties to even.  Magnitudes beyond the largest finite `double` are not turned
into an infinity. -/
def roundDouble (x : ℚ) : ℚ :=
  if x = 0 then 0
  else
    let k := ulpExponent |x|
    let r := (roundHalfEven (|x| / pow2 k) : ℚ) * pow2 k
    if x < 0 then -r else r

namespace Double

/-- Sum of two `double` values. -/
def add (a b : ℚ) : ℚ := roundDouble (a + b)

/-- Difference of two `double` values. -/
def sub (a b : ℚ) : ℚ := roundDouble (a - b)

/-- Product of two `double` values. -/
def mul (a b : ℚ) : ℚ := roundDouble (a * b)

/-- Quotient of two `double` values, for a divisor other than zero (a
division by zero gives an infinity or a NaN in C++, and `0` here). -/
def div (a b : ℚ) : ℚ := roundDouble (a / b)

end Double

/-- Integer point, `QPoint`. -/
structure QPoint where
  xp : Int
  yp : Int
  deriving DecidableEq, Repr

/-- Real point, `QPointF`. -/
structure QPointF where
  xp : ℚ
  yp : ℚ
  deriving DecidableEq, Repr

/-- Conversion `QPointF(const QPoint &)`. -/
def QPointF.ofQPoint (p : QPoint) : QPointF := { xp := (p.xp : ℚ), yp := (p.yp : ℚ) }

/-- Real size, `QSizeF`. -/
structure QSizeF where
  wd : ℚ
  ht : ℚ
  deriving DecidableEq, Repr

/-- Scaling of a size by a factor, `operator*(qreal, const QSizeF &)`. -/
def QSizeF.smul (c : ℚ) (s : QSizeF) : QSizeF := { wd := s.wd * c, ht := s.ht * c }

/-- Integer rectangle, `QRect`, stored by its corner coordinates as in Qt. -/
structure QRect where
  x1 : Int
  y1 : Int
  x2 : Int
  y2 : Int
  deriving DecidableEq, Repr

namespace QRect

/-- Constructor `QRect(left, top, width, height)`. -/
def mk4 (left top width height : Int) : QRect :=
  { x1 := left, y1 := top, x2 := left + width - 1, y2 := top + height - 1 }

/-- Default constructor `QRect()`, the null rectangle. -/
def null : QRect := { x1 := 0, y1 := 0, x2 := -1, y2 := -1 }

def x (r : QRect) : Int := r.x1
def y (r : QRect) : Int := r.y1
def width (r : QRect) : Int := r.x2 - r.x1 + 1
def height (r : QRect) : Int := r.y2 - r.y1 + 1
def left (r : QRect) : Int := r.x1
def top (r : QRect) : Int := r.y1
def right (r : QRect) : Int := r.x2
def bottom (r : QRect) : Int := r.y2

/-- Member `QRect::isNull`. -/
def isNull (r : QRect) : Bool := r.x2 == r.x1 - 1 && r.y2 == r.y1 - 1

/-- Member `QRect::translated(dx, dy)`. -/
def translated (r : QRect) (dx dy : Int) : QRect :=
  { x1 := r.x1 + dx, y1 := r.y1 + dy, x2 := r.x2 + dx, y2 := r.y2 + dy }

end QRect

/-- Real rectangle, `QRectF`. -/
structure QRectF where
  xp : ℚ
  yp : ℚ
  w : ℚ
  h : ℚ
  deriving DecidableEq, Repr

namespace QRectF

/-- Default constructor `QRectF()`, the null rectangle. -/
def null : QRectF := { xp := 0, yp := 0, w := 0, h := 0 }

/-- Conversion `QRectF(const QRect &)`. -/
def ofQRect (r : QRect) : QRectF :=
  { xp := (r.x : ℚ), yp := (r.y : ℚ), w := (r.width : ℚ), h := (r.height : ℚ) }

def size (r : QRectF) : QSizeF := { wd := r.w, ht := r.h }

/-- Member `QRectF::isNull`. -/
def isNull (r : QRectF) : Bool := r.w == 0 && r.h == 0

/-- Member `QRectF::isValid`. -/
def isValid (r : QRectF) : Bool := decide (0 < r.w) && decide (0 < r.h)

/-- Member `QRectF::translated(dx, dy)`. -/
def translated (r : QRectF) (dx dy : ℚ) : QRectF :=
  { xp := Double.add r.xp dx, yp := Double.add r.yp dy, w := r.w, h := r.h }

/-- Left edge of the normalised rectangle (`l1` in the Qt sources). -/
def lo (p e : ℚ) : ℚ := if e < 0 then p + e else p

/-- Right edge of the normalised rectangle (`r1` in the Qt sources). -/
def hi (p e : ℚ) : ℚ := if e < 0 then p else p + e

/-- Member `QRectF::contains(const QRectF &)`. -/
def contains (b r : QRectF) : Bool :=
  let l1 := lo b.xp b.w
  let r1 := hi b.xp b.w
  if l1 = r1 then false else
  let l2 := lo r.xp r.w
  let r2 := hi r.xp r.w
  if l2 = r2 then false else
  if l2 < l1 ∨ r2 > r1 then false else
  let t1 := lo b.yp b.h
  let b1 := hi b.yp b.h
  if t1 = b1 then false else
  let t2 := lo r.yp r.h
  let b2 := hi r.yp r.h
  if t2 = b2 then false else
  if t2 < t1 ∨ b2 > b1 then false else
  true

/-- Member `QRectF::intersects(const QRectF &)`. -/
def intersects (b r : QRectF) : Bool :=
  let l1 := lo b.xp b.w
  let r1 := hi b.xp b.w
  if l1 = r1 then false else
  let l2 := lo r.xp r.w
  let r2 := hi r.xp r.w
  if l2 = r2 then false else
  if l1 ≥ r2 ∨ l2 ≥ r1 then false else
  let t1 := lo b.yp b.h
  let b1 := hi b.yp b.h
  if t1 = b1 then false else
  let t2 := lo r.yp r.h
  let b2 := hi r.yp r.h
  if t2 = b2 then false else
  if t1 ≥ b2 ∨ t2 ≥ b1 then false else
  true

/-- Member `QRectF::contains(const QPointF &)`. -/
def containsPoint (r : QRectF) (p : QPointF) : Bool :=
  let l := lo r.xp r.w
  let r1 := hi r.xp r.w
  if l = r1 then false else
  if p.xp < l ∨ p.xp > r1 then false else
  let t := lo r.yp r.h
  let b := hi r.yp r.h
  if t = b then false else
  if p.yp < t ∨ p.yp > b then false else
  true

end QRectF

/-- Values of `qSin` and `qCos` at an angle given in degrees, for the angles
that `QTransform::rotate` does not treat exactly. -/
structure Trig where
  sin : ℚ → ℚ
  cos : ℚ → ℚ

/-- Affine part of a `QTransform`: the point `(x, y)` is mapped to
`(m11 * x + m21 * y + dx, m12 * x + m22 * y + dy)`. -/
structure QTransform where
  m11 : ℚ
  m12 : ℚ
  m21 : ℚ
  m22 : ℚ
  dx : ℚ
  dy : ℚ
  deriving DecidableEq, Repr

namespace QTransform

/-- Default constructor `QTransform()`, the identity. -/
def identity : QTransform := { m11 := 1, m12 := 0, m21 := 0, m22 := 1, dx := 0, dy := 0 }

/-- Static member `QTransform::fromTranslate(dx, dy)`. -/
def fromTranslate (dx dy : ℚ) : QTransform :=
  { m11 := 1, m12 := 0, m21 := 0, m22 := 1, dx := dx, dy := dy }

/-- Member `QTransform::translate(dx, dy)`: the translation is applied before `t`. -/
def translate (t : QTransform) (dx dy : ℚ) : QTransform :=
  if dx = 0 ∧ dy = 0 then t
  else { t with dx := t.dx + dx * t.m11 + dy * t.m21, dy := t.dy + dy * t.m22 + dx * t.m12 }

/-- Member `QTransform::scale(sx, sy)`: the scaling is applied before `t`. -/
def scale (t : QTransform) (sx sy : ℚ) : QTransform :=
  if sx = 1 ∧ sy = 1 then t
  else { t with m11 := t.m11 * sx, m12 := t.m12 * sx, m21 := t.m21 * sy, m22 := t.m22 * sy }

/-- Sine used by `QTransform::rotate` for an angle in degrees. -/
def sina (tr : Trig) (a : ℚ) : ℚ :=
  if a = 90 ∨ a = -270 then 1
  else if a = 270 ∨ a = -90 then -1
  else if a = 180 then 0
  else tr.sin a

/-- Cosine used by `QTransform::rotate` for an angle in degrees. -/
def cosa (tr : Trig) (a : ℚ) : ℚ :=
  if a = 90 ∨ a = -270 then 0
  else if a = 270 ∨ a = -90 then 0
  else if a = 180 then -1
  else tr.cos a

/-- Member `QTransform::rotate(a, Qt::ZAxis)`: the rotation is applied before `t`. -/
def rotate (tr : Trig) (t : QTransform) (a : ℚ) : QTransform :=
  if a = 0 then t
  else
    let s := sina tr a
    let c := cosa tr a
    { t with
      m11 := c * t.m11 + s * t.m21, m12 := c * t.m12 + s * t.m22,
      m21 := -s * t.m11 + c * t.m21, m22 := -s * t.m12 + c * t.m22 }

/-- Product `a * b` of `QTransform`: first `a`, then `b`. -/
def mul (a b : QTransform) : QTransform :=
  { m11 := a.m11 * b.m11 + a.m12 * b.m21
    m12 := a.m11 * b.m12 + a.m12 * b.m22
    m21 := a.m21 * b.m11 + a.m22 * b.m21
    m22 := a.m21 * b.m12 + a.m22 * b.m22
    dx := a.dx * b.m11 + a.dy * b.m21 + b.dx
    dy := a.dx * b.m12 + a.dy * b.m22 + b.dy }

/-- Member `QTransform::determinant` of an affine matrix. -/
def determinant (t : QTransform) : ℚ := t.m11 * t.m22 - t.m12 * t.m21

/-- Member `QTransform::inverted`: the adjoint divided by the determinant, the
identity when the matrix is singular. -/
def inverted (t : QTransform) : QTransform :=
  let det := t.determinant
  if det = 0 then identity
  else
    { m11 := t.m22 / det
      m12 := -t.m12 / det
      m21 := -t.m21 / det
      m22 := t.m11 / det
      dx := (t.m21 * t.dy - t.m22 * t.dx) / det
      dy := (t.m12 * t.dx - t.m11 * t.dy) / det }

/-- Member `QTransform::map(const QPointF &)`. -/
def mapF (t : QTransform) (p : QPointF) : QPointF :=
  { xp := t.m11 * p.xp + t.m21 * p.yp + t.dx, yp := t.m12 * p.xp + t.m22 * p.yp + t.dy }

/-- Member `QTransform::map(const QPoint &)`: the image is rounded to integers. -/
def map (t : QTransform) (p : QPoint) : QPoint :=
  let q := t.mapF (QPointF.ofQPoint p)
  { xp := qRound q.xp, yp := qRound q.yp }

/-- The matrix is at most a translation (`type() <= TxTranslate`). -/
def isTranslate (t : QTransform) : Bool :=
  t.m12 == 0 && t.m21 == 0 && t.m11 == 1 && t.m22 == 1

/-- The matrix is at most a scaling (`type() <= TxScale`). -/
def isScale (t : QTransform) : Bool := t.m12 == 0 && t.m21 == 0

/-- The macro `MAP` of `qtransform.cpp` for an affine matrix, in `double`
arithmetic: `m11 * x + m21 * y + dx` and `m12 * x + m22 * y + dy`. -/
def mapDouble (t : QTransform) (x y : ℚ) : QPointF :=
  { xp := Double.add (Double.add (Double.mul t.m11 x) (Double.mul t.m21 y)) t.dx
    yp := Double.add (Double.add (Double.mul t.m12 x) (Double.mul t.m22 y)) t.dy }

/-- Member `QTransform::mapRect(const QRectF &)`, in `double` arithmetic. -/
def mapRectF (t : QTransform) (rect : QRectF) : QRectF :=
  if t.isTranslate then rect.translated t.dx t.dy
  else if t.isScale then
    let x := Double.add (Double.mul t.m11 rect.xp) t.dx
    let y := Double.add (Double.mul t.m22 rect.yp) t.dy
    let w := Double.mul t.m11 rect.w
    let h := Double.mul t.m22 rect.h
    let x := if w < 0 then Double.sub x (-w) else x
    let w := if w < 0 then -w else w
    let y := if h < 0 then Double.sub y (-h) else y
    let h := if h < 0 then -h else h
    { xp := x, yp := y, w := w, h := h }
  else
    let right := Double.add rect.xp rect.w
    let bottom := Double.add rect.yp rect.h
    let p1 := t.mapDouble rect.xp rect.yp
    let p2 := t.mapDouble right rect.yp
    let p3 := t.mapDouble right bottom
    let p4 := t.mapDouble rect.xp bottom
    let xmin := min (min (min p1.xp p2.xp) p3.xp) p4.xp
    let ymin := min (min (min p1.yp p2.yp) p3.yp) p4.yp
    let xmax := max (max (max p1.xp p2.xp) p3.xp) p4.xp
    let ymax := max (max (max p1.yp p2.yp) p3.yp) p4.yp
    { xp := xmin, yp := ymin, w := Double.sub xmax xmin, h := Double.sub ymax ymin }

/-- Member `QTransform::mapRect(const QRect &)`: the image is rounded to integers. -/
def mapRect (t : QTransform) (rect : QRect) : QRect :=
  if t.isTranslate then rect.translated (qRound t.dx) (qRound t.dy)
  else if t.isScale then
    let x := qRound (t.m11 * (rect.x : ℚ) + t.dx)
    let y := qRound (t.m22 * (rect.y : ℚ) + t.dy)
    let w := qRound (t.m11 * (rect.width : ℚ))
    let h := qRound (t.m22 * (rect.height : ℚ))
    let x := if w < 0 then x - (-w) else x
    let w := if w < 0 then -w else w
    let y := if h < 0 then y - (-h) else y
    let h := if h < 0 then -h else h
    QRect.mk4 x y w h
  else
    let p1 := t.mapF { xp := (rect.left : ℚ), yp := (rect.top : ℚ) }
    let p2 := t.mapF { xp := (rect.right : ℚ) + 1, yp := (rect.top : ℚ) }
    let p3 := t.mapF { xp := (rect.right : ℚ) + 1, yp := (rect.bottom : ℚ) + 1 }
    let p4 := t.mapF { xp := (rect.left : ℚ), yp := (rect.bottom : ℚ) + 1 }
    let xmin := min (min (min p1.xp p2.xp) p3.xp) p4.xp
    let ymin := min (min (min p1.yp p2.yp) p3.yp) p4.yp
    let xmax := max (max (max p1.xp p2.xp) p3.xp) p4.xp
    let ymax := max (max (max p1.yp p2.yp) p3.yp) p4.yp
    QRect.mk4 (qRound xmin) (qRound ymin) (qRound xmax - qRound xmin)
      (qRound ymax - qRound ymin)

end QTransform

/-! ## Transform math (`math/Common.h`) -/

namespace STMath

/-- Modelled from the spec: `STMath::clamp(size, min, max, Qt::KeepAspectRatio)`
of `math/Common.h`, which is not among the sources.  The spec (4.1): the
request is clamped to `[min, max]` while its aspect ratio is preserved; if the
request violates one axis, both axes are scaled up or down proportionally
rather than clamped independently. -/
def clamp (size mn mx : QSizeF) : QSizeF :=
  let up :=
    if size.wd < mn.wd ∨ size.ht < mn.ht then
      QSizeF.smul (max (mn.wd / size.wd) (mn.ht / size.ht)) size
    else size
  if up.wd > mx.wd ∨ up.ht > mx.ht then
    QSizeF.smul (min (mx.wd / up.wd) (mx.ht / up.ht)) up
  else up

/-- Modelled from the spec: the scalar `STMath::clamp(value, min, max)` of
`math/Common.h`, which is not among the sources.  The spec (2, 4.1): a pure
function that returns the angle folded into `[min, max]` by wraparound. -/
def clampAngle (v mn mx : ℚ) : ℚ :=
  if mn ≤ v ∧ v ≤ mx then v
  else mn + ((v - mn) - (mx - mn) * ((⌊(v - mn) / (mx - mn)⌋ : Int) : ℚ))

end STMath

/-! ## Rendering nodes -/

/-- Address of a rendering node (`GraphicItemGL *`); `0` is the null pointer. -/
abbrev NodePtr := Nat

/-- Anchor of a node, `Globals::Anchor`. -/
inductive Anchor where
  | Center | North | NorthEast | East | SouthEast | South | SouthWest | West
  | NorthWest | None
  deriving DecidableEq, Repr

/-- Modelled from the spec: the interface of `GraphicItemGL` (its header is
not among the sources) as far as the view queries it: the capability flags,
the anchor, the local transform, the bounding rectangle and the hit test. -/
structure GraphicItemGL where
  visible : Bool
  selectable : Bool
  transformable : Bool
  rubberBandable : Bool
  invertedX : Bool
  invertedY : Bool
  anchor : Anchor
  transform : QTransform
  boundingRect : QRectF
  contains : QPointF → Bool

/-! ## Events -/

/-- Mouse button of an event, `Qt::MouseButton`. -/
inductive MouseButton where
  | NoButton | LeftButton | RightButton | MiddleButton
  deriving DecidableEq, Repr

/-- Cursor shapes set by the view, `Qt::CursorShape`. -/
inductive CursorShape where
  | PointingHandCursor | ClosedHandCursor
  deriving DecidableEq, Repr

/-- Keys handled by the view, `Qt::Key`. -/
inductive Key where
  | Key_Right | Key_Left | Key_Up | Key_Down | Key_Other
  deriving DecidableEq, Repr

/-- Mouse event, `QMouseEvent`: positions, button, button state and keyboard
modifiers. -/
structure QMouseEvent where
  localPos : QPointF
  windowPos : QPointF
  screenPos : QPointF
  button : MouseButton
  buttons : Nat
  modifiers : Nat
  deriving DecidableEq

/-- Member `QPointF::toPoint`. -/
def QPointF.toPoint (p : QPointF) : QPoint := { xp := qRound p.xp, yp := qRound p.yp }

/-- Member `QMouseEvent::pos`. -/
def QMouseEvent.pos (e : QMouseEvent) : QPoint := e.localPos.toPoint

/-- Member `QMouseEvent::globalPos`. -/
def QMouseEvent.globalPos (e : QMouseEvent) : QPoint := e.screenPos.toPoint

/-- Selection mode of a selection event, `SelectionEvent::SelectionMode`. -/
inductive SelectionMode where
  | NewSelection | IncludeSelection | ExcludeSelection
  deriving DecidableEq, Repr

/-- Selection event, `SelectionEvent`: a rectangle in node-local space and a mode. -/
structure SelectionEvent where
  rect : QRectF
  mode : SelectionMode
  deriving DecidableEq

/-- A call from the view into a node. -/
inductive Delivery where
  | draw (node : NodePtr) (modelView : QTransform)
  | mousePressEvent (node : NodePtr) (event : QMouseEvent)
  | mouseReleaseEvent (node : NodePtr) (event : QMouseEvent)
  | mouseMoveEvent (node : NodePtr) (event : QMouseEvent)
  | setSelectionArea (node : NodePtr) (event : SelectionEvent)
  deriving DecidableEq

/-- What the view takes from outside: the trigonometric functions, the node
objects behind the addresses, and `SelectionEvent::modeFromKeyboardModifiers`. -/
structure Env where
  trig : Trig
  node : NodePtr → GraphicItemGL
  modeFromKeyboardModifiers : Nat → SelectionMode

/-! ## View state -/

def DEFAULT_ZOOM_MIN : QSizeF := { wd := 1, ht := 1 }
def DEFAULT_ZOOM_MAX : QSizeF := { wd := 20, ht := 20 }
def DEFAULT_ZOOM_IN : ℚ := 11 / 10 / 1
def DEFAULT_ZOOM_OUT : ℚ := 1 / (11 / 10)
def DELTA_PANNING : ℚ := 3
def DELTA_MOUSE_PANNING : ℚ := 1

/-- State of a `CellGLView`: the members used by `CellGLView.cpp`, the cursor
of the window, the connections to the `updated()` signals of nodes, and the
number of expose events posted by `update()`. -/
structure CellGLView where
  m_initialized : Bool
  m_viewport : QRectF
  m_scene : QRectF
  m_nodes : List NodePtr
  m_originPanning : QPoint
  m_originRubberBand : QPoint
  m_panning : Bool
  m_rubberBanding : Bool
  m_rubberBandRect : QRect
  m_rotate : ℚ
  m_panx : ℚ
  m_pany : ℚ
  m_scaleX : ℚ
  m_scaleY : ℚ
  m_zoom : QSizeF
  cursor : Option CursorShape
  connections : List NodePtr
  updates : Nat
  deriving DecidableEq

namespace CellGLView

/-- Slot `CellGLView::update`: posts one expose event. -/
def update (s : CellGLView) : CellGLView := { s with updates := s.updates + 1 }

/-- Function `CellGLView::sceneTransformations`. -/
def sceneTransformations (tr : Trig) (s : CellGLView) : QTransform :=
  let transform := QTransform.identity
  let transform := if s.m_rotate ≠ 0 then transform.rotate tr s.m_rotate else transform
  let transform :=
    if s.m_panx ≠ 0 ∨ s.m_pany ≠ 0 then transform.translate s.m_panx s.m_pany else transform
  let transform :=
    if s.m_scaleX ≠ 1 ∨ s.m_scaleY ≠ 1 then transform.scale s.m_scaleX s.m_scaleY else transform
  transform

/-- Anchor placement, the `switch` of `CellGLView::nodeTransformations`. -/
def anchorTransform (viewSize : QSizeF) (anchor : Anchor) : QTransform :=
  match anchor with
  | Anchor.Center => QTransform.fromTranslate (viewSize.wd * (1 / 2)) (viewSize.ht * (1 / 2))
  | Anchor.North => QTransform.fromTranslate (viewSize.wd * (1 / 2)) 0
  | Anchor.NorthEast => QTransform.fromTranslate viewSize.wd 0
  | Anchor.East => QTransform.fromTranslate viewSize.wd (viewSize.ht * (1 / 2))
  | Anchor.SouthEast => QTransform.fromTranslate viewSize.wd viewSize.ht
  | Anchor.South => QTransform.fromTranslate (viewSize.wd * (1 / 2)) viewSize.ht
  | Anchor.SouthWest => QTransform.fromTranslate 0 viewSize.ht
  | Anchor.West => QTransform.fromTranslate 0 (viewSize.ht * (1 / 2))
  | Anchor.NorthWest => QTransform.fromTranslate 0 0
  | Anchor.None => QTransform.fromTranslate 0 0

/-- Function `CellGLView::nodeTransformations`. -/
def nodeTransformations (s : CellGLView) (node : GraphicItemGL) : QTransform :=
  let viewSize := s.m_viewport.size
  let transform := anchorTransform viewSize node.anchor
  let transform :=
    if node.invertedX ∨ node.invertedY then
      transform.scale (if node.invertedX then -1 else 1) (if node.invertedY then -1 else 1)
    else transform
  node.transform.mul transform

/-- The fill scale `z` of `CellGLView::setTransformZoom`: the larger of the
two quotients of `double` values. -/
def fillScale (view scene : QSizeF) : ℚ :=
  max (Double.div view.wd scene.wd) (Double.div view.ht scene.ht)

/-- Function `CellGLView::setTransformZoom`, in `double` arithmetic. -/
def setTransformZoom (tr : Trig) (s : CellGLView) (zoom : QSizeF) : CellGLView :=
  let view := s.m_viewport.size
  let scene := ((sceneTransformations tr s).mapRectF s.m_scene).size
  let z := fillScale view scene
  { s with
    m_scaleX := Double.mul (Double.mul z zoom.wd) s.m_scaleX
    m_scaleY := Double.mul (Double.mul z zoom.ht) s.m_scaleY }

/-- Function `CellGLView::setZoom`. -/
def setZoom (tr : Trig) (s : CellGLView) (zoom : QSizeF) : CellGLView :=
  let boundedZoom := STMath.clamp zoom DEFAULT_ZOOM_MIN DEFAULT_ZOOM_MAX
  if s.m_zoom ≠ boundedZoom then
    let s := { s with m_zoom := boundedZoom }
    let s := setTransformZoom tr s s.m_zoom
    update s
  else s

/-- Slot `CellGLView::zoomIn`. -/
def zoomIn (tr : Trig) (s : CellGLView) : CellGLView :=
  setZoom tr s (QSizeF.smul DEFAULT_ZOOM_IN s.m_zoom)

/-- Slot `CellGLView::zoomOut`. -/
def zoomOut (tr : Trig) (s : CellGLView) : CellGLView :=
  setZoom tr s (QSizeF.smul DEFAULT_ZOOM_OUT s.m_zoom)

/-- Handler `CellGLView::wheelEvent`; `zoomFactor` is the value of
`qPow(4.0 / 3.0, -delta / 240.0)`. -/
def wheelEvent (tr : Trig) (s : CellGLView) (zoomFactor : ℚ) : CellGLView :=
  setZoom tr s (QSizeF.smul zoomFactor s.m_zoom)

/-- Slot `CellGLView::rotate`.  The value returned by `STMath::clamp` is not
assigned. -/
def rotate (s : CellGLView) (angle : ℚ) : CellGLView :=
  if angle ≥ -180 ∧ angle ≤ 180 ∧ s.m_rotate ≠ angle then
    let s := { s with m_rotate := s.m_rotate + angle }
    let _unused := STMath.clampAngle s.m_rotate (-360) 360
    update s
  else s

/-- Slot `CellGLView::setViewPort`. -/
def setViewPort (s : CellGLView) (viewport : QRectF) : CellGLView :=
  if s.m_viewport ≠ viewport ∧ viewport.isValid then { s with m_viewport := viewport } else s

/-- Slot `CellGLView::setScene`. -/
def setScene (s : CellGLView) (scene : QRectF) : CellGLView :=
  if s.m_scene ≠ scene ∧ scene.isValid then { s with m_scene := scene } else s

/-- Function `CellGLView::addRenderingNode`; `none` is the failed assertion. -/
def addRenderingNode (s : CellGLView) (node : NodePtr) : Option CellGLView :=
  if node = 0 then none
  else some { s with m_nodes := s.m_nodes ++ [node], connections := s.connections ++ [node] }

/-- Function `CellGLView::removeRenderingNode`; `none` is the failed assertion. -/
def removeRenderingNode (s : CellGLView) (node : NodePtr) : Option CellGLView :=
  if node = 0 then none
  else
    some { s with
      m_nodes := s.m_nodes.erase node
      connections := s.connections.filter (fun c => c != node) }

/-- The rectangle spanned by the rubber band, as built by
`CellGLView::mouseReleaseEvent` and `CellGLView::mouseMoveEvent`. -/
def rubberBandRect (origin destiny : QPoint) : QRect :=
  QRect.mk4 (min origin.xp destiny.xp) (min origin.yp destiny.yp)
    (|origin.xp - destiny.xp| + 1) (|origin.yp - destiny.yp| + 1)

/-- The position handed to a node by the mouse handlers:
`nodeTransformations(node).inverted().map(point)`. -/
def localPoint (s : CellGLView) (node : GraphicItemGL) (point : QPoint) : QPointF :=
  QPointF.ofQPoint ((nodeTransformations s node).inverted.map point)

/-- The event handed to a node by the mouse handlers: the event with the
local position replaced. -/
def newEvent (event : QMouseEvent) (localPoint : QPointF) : QMouseEvent :=
  { event with localPos := localPoint }

/-- Body of the node loop of `CellGLView::mousePressEvent`. -/
def pressNode (env : Env) (s : CellGLView) (event : QMouseEvent) (point : QPoint)
    (node : NodePtr) : Option Delivery :=
  if (env.node node).selectable then
    let localPoint := localPoint s (env.node node) point
    if (env.node node).contains localPoint then
      some (Delivery.mousePressEvent node (newEvent event localPoint))
    else none
  else none

/-- Body of the node loop of the left-button branch of
`CellGLView::mouseReleaseEvent`. -/
def releaseNode (env : Env) (s : CellGLView) (event : QMouseEvent) (point : QPoint)
    (node : NodePtr) : Option Delivery :=
  if (env.node node).selectable then
    let localPoint := localPoint s (env.node node) point
    if (env.node node).contains localPoint then
      some (Delivery.mouseReleaseEvent node (newEvent event localPoint))
    else none
  else none

/-- Body of the node loop of `CellGLView::mouseMoveEvent`. -/
def moveNode (env : Env) (s : CellGLView) (event : QMouseEvent) (point : QPoint)
    (node : NodePtr) : Option Delivery :=
  if (env.node node).selectable then
    let localPoint := localPoint s (env.node node) point
    if (env.node node).contains localPoint then
      some (Delivery.mouseMoveEvent node (newEvent event localPoint))
    else none
  else none

/-- The composed transform of a node as used by the render pass and by the
rubber band: `nodeTransformations(node)`, multiplied by
`sceneTransformations()` when the node is transformable. -/
def composedTransform (tr : Trig) (s : CellGLView) (node : GraphicItemGL) : QTransform :=
  let node_trans := nodeTransformations s node
  if node.transformable then node_trans.mul (sceneTransformations tr s) else node_trans

/-- The rubber band mapped to the coordinate system of a node, `transformed`
before the test against the bounding rectangle.  `m_rubberBandRect` is a
`QRect`, so the integer overload of `mapRect` is the one called. -/
def mappedRubberBand (tr : Trig) (s : CellGLView) (node : GraphicItemGL) : QRectF :=
  QRectF.ofQRect ((composedTransform tr s node).inverted.mapRect s.m_rubberBandRect)

/-- Body of the node loop of the right-button branch of
`CellGLView::mouseReleaseEvent`. -/
def selectNode (env : Env) (s : CellGLView) (event : QMouseEvent) (node : NodePtr) :
    Option Delivery :=
  if (env.node node).rubberBandable then
    let transformed := mappedRubberBand env.trig s (env.node node)
    let transformed :=
      if ¬ (env.node node).boundingRect.contains transformed then QRectF.null else transformed
    let mode := env.modeFromKeyboardModifiers event.modifiers
    some (Delivery.setSelectionArea node { rect := transformed, mode := mode })
  else none

/-- Handler `CellGLView::mousePressEvent`: the new state and the calls into
the nodes. -/
def mousePressEvent (env : Env) (s : CellGLView) (event : QMouseEvent) :
    CellGLView × List Delivery :=
  if event.button = MouseButton.LeftButton then
    let s := { s with m_panning := true, m_originPanning := event.globalPos }
    let point := event.pos
    (s, s.m_nodes.filterMap (pressNode env s event point))
  else if event.button = MouseButton.RightButton ∧ ¬ s.m_rubberBanding then
    ({ s with
        cursor := some CursorShape.PointingHandCursor
        m_rubberBanding := true
        m_originRubberBand := event.pos
        m_rubberBandRect := QRect.null }, [])
  else (s, [])

/-- Handler `CellGLView::mouseReleaseEvent`: the new state and the calls into
the nodes. -/
def mouseReleaseEvent (env : Env) (s : CellGLView) (event : QMouseEvent) :
    CellGLView × List Delivery :=
  if event.button = MouseButton.LeftButton then
    let s := { s with cursor := none, m_panning := false }
    let point := event.pos
    (s, s.m_nodes.filterMap (releaseNode env s event point))
  else if event.button = MouseButton.RightButton ∧ s.m_rubberBanding then
    let s := { s with cursor := none }
    let origin := s.m_originRubberBand
    let destiny := event.pos
    let s := { s with m_rubberBandRect := rubberBandRect origin destiny }
    let calls := s.m_nodes.filterMap (selectNode env s event)
    ({ s with m_rubberBanding := false, m_rubberBandRect := QRect.null }, calls)
  else (s, [])

/-- Handler `CellGLView::mouseMoveEvent`: the new state and the calls into the
nodes. -/
def mouseMoveEvent (env : Env) (s : CellGLView) (event : QMouseEvent) :
    CellGLView × List Delivery :=
  let s :=
    if s.m_panning then
      let point := event.globalPos
      update { s with
        cursor := some CursorShape.ClosedHandCursor
        m_panx := s.m_panx + ((point.xp - s.m_originPanning.xp : Int) : ℚ) * DELTA_MOUSE_PANNING
        m_pany := s.m_pany + ((point.yp - s.m_originPanning.yp : Int) : ℚ) * DELTA_MOUSE_PANNING
        m_originPanning := point }
    else s
  if event.button = MouseButton.RightButton ∧ s.m_rubberBanding then
    ({ s with m_rubberBandRect := rubberBandRect s.m_originRubberBand event.pos }, [])
  else if event.button = MouseButton.LeftButton then
    let point := event.pos
    (s, s.m_nodes.filterMap (moveNode env s event point))
  else (s, [])

/-- Handler `CellGLView::keyPressEvent`. -/
def keyPressEvent (s : CellGLView) (key : Key) : CellGLView :=
  let s :=
    match key with
    | Key.Key_Right => { s with m_panx := s.m_panx + DELTA_PANNING }
    | Key.Key_Left => { s with m_panx := s.m_panx - DELTA_PANNING }
    | Key.Key_Up => { s with m_pany := s.m_pany - DELTA_PANNING }
    | Key.Key_Down => { s with m_pany := s.m_pany + DELTA_PANNING }
    | Key.Key_Other => s
  update s

end CellGLView

/-! ## Render pass -/

/-- The part of a `QGLPainter` used by the render pass: the model-view matrix
with its stack of saved matrices, and the draw calls issued so far. -/
structure QGLPainter where
  modelView : QTransform
  saved : List QTransform
  calls : List Delivery

namespace QGLPainter

/-- A painter after `begin()`. -/
def start : QGLPainter := { modelView := QTransform.identity, saved := [], calls := [] }

/-- Call `modelViewMatrix().push()`. -/
def push (p : QGLPainter) : QGLPainter := { p with saved := p.modelView :: p.saved }

/-- Call `modelViewMatrix().pop()`. -/
def pop (p : QGLPainter) : QGLPainter :=
  match p.saved with
  | [] => p
  | m :: rest => { p with modelView := m, saved := rest }

/-- Statement `modelViewMatrix() *= m`: `m` is applied before the current matrix. -/
def mulModelView (p : QGLPainter) (m : QTransform) : QGLPainter :=
  { p with modelView := m.mul p.modelView }

/-- Call `node->draw(&painter)`. -/
def draw (p : QGLPainter) (node : NodePtr) : QGLPainter :=
  { p with calls := p.calls ++ [Delivery.draw node p.modelView] }

end QGLPainter

namespace CellGLView

/-- Body of the node loop of `CellGLView::paintGL`. -/
def paintNode (env : Env) (s : CellGLView) (painter : QGLPainter) (node : NodePtr) :
    QGLPainter :=
  if (env.node node).visible then
    let local_transform := composedTransform env.trig s (env.node node)
    (((painter.push).mulModelView local_transform).draw node).pop
  else painter

/-- Function `CellGLView::paintGL`: the painter after the pass. -/
def paintGL (env : Env) (s : CellGLView) : QGLPainter :=
  s.m_nodes.foldl (paintNode env s) QGLPainter.start

/-- Function `CellGLView::resizeGL`. -/
def resizeGL (s : CellGLView) (width height : Int) (pixelRatio : ℚ) : CellGLView :=
  setViewPort s
    { xp := 0, yp := 0, w := (width : ℚ) * pixelRatio, h := (height : ℚ) * pixelRatio }

end CellGLView

/-! ## Derived notions used by the statements -/

/-- The draw calls of a render pass over a list of nodes, for a painter whose
model-view matrix is `modelView` before the pass. -/
def drawCalls (env : Env) (s : CellGLView) (modelView : QTransform) (nodes : List NodePtr) :
    List Delivery :=
  nodes.filterMap fun node =>
    if (env.node node).visible then
      some (Delivery.draw node
        ((CellGLView.composedTransform env.trig s (env.node node)).mul modelView))
    else none

/-- Both components of a zoom lie between `DEFAULT_ZOOM_MIN` and `DEFAULT_ZOOM_MAX`. -/
def zoomInRange (z : QSizeF) : Prop :=
  DEFAULT_ZOOM_MIN.wd ≤ z.wd ∧ z.wd ≤ DEFAULT_ZOOM_MAX.wd ∧
  DEFAULT_ZOOM_MIN.ht ≤ z.ht ∧ z.ht ≤ DEFAULT_ZOOM_MAX.ht

instance (z : QSizeF) : Decidable (zoomInRange z) := by
  unfold zoomInRange; infer_instance

/-- A zoom request that a proportional scaling can bring into the range: its
components are positive and their ratio lies between `1 / 20` and `20`. -/
def zoomFits (z : QSizeF) : Prop :=
  0 < z.wd ∧ 0 < z.ht ∧ z.wd ≤ 20 * z.ht ∧ z.ht ≤ 20 * z.wd

instance (z : QSizeF) : Decidable (zoomFits z) := by
  unfold zoomFits; infer_instance

/-- Zoom operations of the view. -/
inductive ZoomOp where
  | setZoom (zoom : QSizeF)
  | zoomIn
  | zoomOut
  | wheelEvent (zoomFactor : ℚ)

/-- One zoom operation on the view. -/
def ZoomOp.apply (tr : Trig) (s : CellGLView) : ZoomOp → CellGLView
  | ZoomOp.setZoom zoom => CellGLView.setZoom tr s zoom
  | ZoomOp.zoomIn => CellGLView.zoomIn tr s
  | ZoomOp.zoomOut => CellGLView.zoomOut tr s
  | ZoomOp.wheelEvent zoomFactor => CellGLView.wheelEvent tr s zoomFactor

/-- The request of a zoom operation can be fitted: a `setZoom` request fits,
a wheel factor is positive. -/
def ZoomOp.fits : ZoomOp → Prop
  | ZoomOp.setZoom zoom => zoomFits zoom
  | ZoomOp.zoomIn => True
  | ZoomOp.zoomOut => True
  | ZoomOp.wheelEvent zoomFactor => 0 < zoomFactor

/-! ## Example data -/

namespace Example

/-- Trigonometric values of the examples; no example rotates by an angle that
needs them. -/
def trig : Trig := { sin := fun _ => 0, cos := fun _ => 1 }

/-- A view with viewport `(0,0,800,600)`, scene `(0,0,400,300)`, zoom `(1,1)`,
scale factors `(1,1)`, no pan, no rotation and no nodes. -/
def view : CellGLView :=
  { m_initialized := true
    m_viewport := { xp := 0, yp := 0, w := 800, h := 600 }
    m_scene := { xp := 0, yp := 0, w := 400, h := 300 }
    m_nodes := []
    m_originPanning := { xp := 0, yp := 0 }
    m_originRubberBand := { xp := 0, yp := 0 }
    m_panning := false
    m_rubberBanding := false
    m_rubberBandRect := QRect.null
    m_rotate := 0
    m_panx := 0
    m_pany := 0
    m_scaleX := 1
    m_scaleY := 1
    m_zoom := { wd := 1, ht := 1 }
    cursor := none
    connections := []
    updates := 0 }

/-- A visible, selectable, transformable, rubber-bandable node without anchor
and with identity transform, whose hit test is its bounding rectangle
`(0,0,100,100)`. -/
def item : GraphicItemGL :=
  { visible := true
    selectable := true
    transformable := true
    rubberBandable := true
    invertedX := false
    invertedY := false
    anchor := Anchor.None
    transform := QTransform.identity
    boundingRect := { xp := 0, yp := 0, w := 100, h := 100 }
    contains := fun p => decide (0 ≤ p.xp ∧ p.xp ≤ 100 ∧ 0 ≤ p.yp ∧ p.yp ≤ 100) }

/-- Every address holds the example node. -/
def env : Env :=
  { trig := trig
    node := fun _ => item
    modeFromKeyboardModifiers := fun _ => SelectionMode.NewSelection }

/-- A mouse event of the given button at position `(x, y)`. -/
def mouse (button : MouseButton) (x y : ℚ) : QMouseEvent :=
  { localPos := { xp := x, yp := y }
    windowPos := { xp := x, yp := y }
    screenPos := { xp := x, yp := y }
    button := button
    buttons := 0
    modifiers := 0 }

/-- The example view panned by `(5, 0)`, with one node, at address `1`. -/
def pannedView : CellGLView := { view with m_panx := 5, m_nodes := [1] }

/-- The example view with one node, at address `1`, while a rubber band that
started at `(200, 200)` is dragged. -/
def bandingView : CellGLView :=
  { view with
    m_nodes := [1]
    m_rubberBanding := true
    m_originRubberBand := { xp := 200, yp := 200 } }

end Example

/-! ## Destruction, operation sequences and further derived notions -/

namespace CellGLView

/-- Destructor `CellGLView::~CellGLView`, as far as the nodes are concerned:
`alive` tells which addresses hold a live node, and the loop of the destructor
deletes every node of the list. -/
def destructor (s : CellGLView) (alive : NodePtr → Bool) : NodePtr → Bool :=
  s.m_nodes.foldl (fun live node => fun p => if p = node then false else live p) alive

/-- The node passes the capability test and the hit test of the mouse
handlers at a device point. -/
def accepts (env : Env) (s : CellGLView) (point : QPoint) (node : NodePtr) : Bool :=
  (env.node node).selectable && (env.node node).contains (localPoint s (env.node node) point)

/-- The state after a sequence of mouse move events. -/
def mouseMoves (env : Env) (s : CellGLView) (events : List QMouseEvent) : CellGLView :=
  events.foldl (fun s1 event => (mouseMoveEvent env s1 event).1) s

end CellGLView

/-- The global position of the last event of a sequence, `g0` for the empty
sequence. -/
def lastGlobalPos (g0 : QPoint) (events : List QMouseEvent) : QPoint :=
  events.foldl (fun _ event => event.globalPos) g0

/-- Registration operations of the view. -/
inductive NodeOp where
  | addRenderingNode (node : NodePtr)
  | removeRenderingNode (node : NodePtr)
  deriving DecidableEq

/-- The node of a registration operation. -/
def NodeOp.node : NodeOp → NodePtr
  | NodeOp.addRenderingNode node => node
  | NodeOp.removeRenderingNode node => node

/-- One registration operation on the view. -/
def NodeOp.apply (s : CellGLView) : NodeOp → Option CellGLView
  | NodeOp.addRenderingNode node => s.addRenderingNode node
  | NodeOp.removeRenderingNode node => s.removeRenderingNode node

/-- A sequence of registration operations on the view. -/
def NodeOp.run (s : CellGLView) : List NodeOp → Option CellGLView
  | [] => some s
  | op :: ops => (op.apply s).bind fun s1 => NodeOp.run s1 ops

/-- No operation of the sequence adds a node that the list holds at that
moment; `nodes` is the list before the sequence. -/
def NodeOp.addsFresh (nodes : List NodePtr) : List NodeOp → Prop
  | [] => True
  | NodeOp.addRenderingNode node :: ops =>
    node ∉ nodes ∧ NodeOp.addsFresh (nodes ++ [node]) ops
  | NodeOp.removeRenderingNode node :: ops => NodeOp.addsFresh (nodes.erase node) ops

/-- Pointer events of the view. -/
inductive PointerEvent where
  | press (event : QMouseEvent)
  | move (event : QMouseEvent)
  | release (event : QMouseEvent)

/-- The state after one pointer event. -/
def PointerEvent.apply (env : Env) (s : CellGLView) : PointerEvent → CellGLView
  | PointerEvent.press event => (s.mousePressEvent env event).1
  | PointerEvent.move event => (s.mouseMoveEvent env event).1
  | PointerEvent.release event => (s.mouseReleaseEvent env event).1

/-- Whether the last press or release of a button in a sequence of pointer
events is a press; `down` is the answer for a sequence without such an event. -/
def PointerEvent.buttonDown (button : MouseButton) (down : Bool) : List PointerEvent → Bool
  | [] => down
  | PointerEvent.press event :: events =>
    PointerEvent.buttonDown button (if event.button = button then true else down) events
  | PointerEvent.move _ :: events => PointerEvent.buttonDown button down events
  | PointerEvent.release event :: events =>
    PointerEvent.buttonDown button (if event.button = button then false else down) events

/-- The reference point of an anchor in a viewport of the size `(w, h)`, in the
words of the specification: the centre, the corners and the midpoints of the
edges, the origin for `NorthWest` and `None`. -/
def anchorReferencePoint (viewSize : QSizeF) : Anchor → QPointF
  | Anchor.Center => { xp := viewSize.wd / 2, yp := viewSize.ht / 2 }
  | Anchor.North => { xp := viewSize.wd / 2, yp := 0 }
  | Anchor.NorthEast => { xp := viewSize.wd, yp := 0 }
  | Anchor.East => { xp := viewSize.wd, yp := viewSize.ht / 2 }
  | Anchor.SouthEast => { xp := viewSize.wd, yp := viewSize.ht }
  | Anchor.South => { xp := viewSize.wd / 2, yp := viewSize.ht }
  | Anchor.SouthWest => { xp := 0, yp := viewSize.ht }
  | Anchor.West => { xp := 0, yp := viewSize.ht / 2 }
  | Anchor.NorthWest => { xp := 0, yp := 0 }
  | Anchor.None => { xp := 0, yp := 0 }

namespace Example

/-- The example view with the nodes `1` and `2` registered. -/
def twoNodeView : CellGLView := { view with m_nodes := [1, 2], connections := [1, 2] }

/-- Every node is alive. -/
def allAlive : NodePtr → Bool := fun _ => true

/-- A node like the example node that is mirrored in `x` and anchored at the
centre of the viewport. -/
def mirroredItem : GraphicItemGL := { item with invertedX := true, anchor := Anchor.Center }

end Example

/-! ## Repeated exposure and further example data -/

namespace CellGLView

/-- The rectangle of the selection event of a node: the mapped rubber band,
replaced by the null rectangle when the bounding rectangle of the node does
not contain it. -/
def selectionRect (tr : Trig) (s : CellGLView) (band : QRect) (node : GraphicItemGL) : QRectF :=
  if node.boundingRect.contains
      (QRectF.ofQRect ((composedTransform tr s node).inverted.mapRect band)) then
    QRectF.ofQRect ((composedTransform tr s node).inverted.mapRect band)
  else QRectF.null

end CellGLView

namespace Example

/-- The example view with one node, at address `1`, while a rubber band that
started at `(50, 50)` is dragged. -/
def overlapView : CellGLView :=
  { view with
    m_nodes := [1]
    m_rubberBanding := true
    m_originRubberBand := { xp := 50, yp := 50 } }

end Example

/-- The call is a selection event for the node. -/
def Delivery.isSelectionOf (node : NodePtr) : Delivery → Bool
  | Delivery.setSelectionArea n _ => n == node
  | _ => false

/-- The example view after `addRenderingNode(1)` twice and a right-button
press at `(50, 50)`. -/
def Example.twiceView : CellGLView :=
  { Example.view with
    m_nodes := [1, 1]
    connections := [1, 1]
    cursor := some CursorShape.PointingHandCursor
    m_rubberBanding := true
    m_originRubberBand := { xp := 50, yp := 50 } }

/-! ## The measured scene and further example data -/

/-- The size of the scene as `setTransformZoom` measures it (line 217): the
size of the image of the stored scene rectangle under the scene transform. -/
def CellGLView.mappedSceneSize (tr : Trig) (s : CellGLView) : QSizeF :=
  ((CellGLView.sceneTransformations tr s).mapRectF s.m_scene).size

/-- A view with viewport `(0,0,1280,720)`, scene `(0,0,700,350)`, zoom `(1,1)`,
scale factors `(1,1)`, no pan, no rotation and no nodes. -/
def Example.wideView : CellGLView :=
  { Example.view with
    m_viewport := { xp := 0, yp := 0, w := 1280, h := 720 }
    m_scene := { xp := 0, yp := 0, w := 700, h := 350 } }

/-- The example view with the scene `(0,0,400,200)`. -/
def Example.flatView : CellGLView :=
  { Example.view with m_scene := { xp := 0, yp := 0, w := 400, h := 200 } }

/-- The view of the wide example with the scale factors `(7, 7)`. -/
def Example.wideView7 : CellGLView := { Example.wideView with m_scaleX := 7, m_scaleY := 7 }

/-- A mouse move event at `(x, y)` while the left button is held down, as Qt
delivers it: `button()` of a move event is `Qt::NoButton`, the buttons held
down are in `buttons()` (`Qt::LeftButton` is `0x1`). -/
def Example.drag (x y : ℚ) : QMouseEvent :=
  { Example.mouse MouseButton.NoButton x y with buttons := 1 }

/-! ## Lemmas -/

/-! ### Rounding to a `double` -/

/-- The function `pow2` is the power of two. -/
theorem pow2_eq (k : Int) : pow2 k = (2 : ℚ) ^ k := by
  unfold pow2
  split_ifs with h
  · obtain ⟨n, rfl⟩ := Int.eq_ofNat_of_zero_le h
    simp
  · obtain ⟨n, hn⟩ := Int.eq_ofNat_of_zero_le (show 0 ≤ -k by omega)
    have hk : k = -(n : Int) := by omega
    subst hk
    simp

/-- With enough fuel `natLog2` is the floor of the binary logarithm. -/
theorem natLog2_spec (fuel n : Nat) (hf : n ≤ fuel) (hn : 0 < n) :
    2 ^ natLog2 fuel n ≤ n ∧ n < 2 ^ (natLog2 fuel n + 1) := by
  induction fuel generalizing n with
  | zero => omega
  | succ f ih =>
    unfold natLog2
    split_ifs with h2
    · have hd : 0 < n / 2 := Nat.div_pos h2 (by norm_num)
      have hle : n / 2 ≤ f := by omega
      obtain ⟨a, b⟩ := ih (n / 2) hle hd
      constructor
      · calc 2 ^ (natLog2 f (n / 2) + 1) = 2 ^ natLog2 f (n / 2) * 2 := pow_succ _ _
          _ ≤ n / 2 * 2 := Nat.mul_le_mul_right 2 a
          _ ≤ n := Nat.div_mul_le_self n 2
      · have : n / 2 + 1 ≤ 2 ^ (natLog2 f (n / 2) + 1) := b
        calc n < (n / 2 + 1) * 2 := by omega
          _ ≤ 2 ^ (natLog2 f (n / 2) + 1) * 2 := Nat.mul_le_mul_right 2 this
          _ = 2 ^ (natLog2 f (n / 2) + 1 + 1) := (pow_succ _ _).symm
    · constructor <;> simp <;> omega

/-- The floor of the binary logarithm is fixed by the two powers around. -/
theorem log_two_eq (x : ℚ) (e : Int) (h1 : (2 : ℚ) ^ e ≤ x) (h2 : x < (2 : ℚ) ^ (e + 1)) :
    Int.log 2 x = e := by
  have hx : 0 < x := lt_of_lt_of_le (by positivity) h1
  have a := (Int.zpow_le_iff_le_log (b := 2) (by norm_num) hx).1 (by exact_mod_cast h1)
  have b := (Int.lt_zpow_iff_log_lt (b := 2) (by norm_num) hx).1 (by exact_mod_cast h2)
  omega

/-- The function `floorLog2` is the floor of the binary logarithm. -/
theorem floorLog2_eq (x : ℚ) (hx : 0 < x) : floorLog2 x = Int.log 2 x := by
  have hnum : 0 < x.num := Rat.num_pos.2 hx
  have hp : 0 < x.num.natAbs := Int.natAbs_pos.2 hnum.ne'
  obtain ⟨pa, pb⟩ := natLog2_spec x.num.natAbs x.num.natAbs le_rfl hp
  obtain ⟨qa, qb⟩ := natLog2_spec x.den x.den le_rfl x.den_pos
  set a := natLog2 x.num.natAbs x.num.natAbs with ha
  set b := natLog2 x.den x.den with hb
  have hxe : x = (x.num.natAbs : ℚ) / (x.den : ℚ) := by
    have h2 : (x.num.natAbs : ℚ) = (x.num : ℚ) := by
      rw [Nat.cast_natAbs, abs_of_pos hnum]
    rw [h2]; exact (Rat.num_div_den x).symm
  have hq : (0 : ℚ) < (x.den : ℚ) := by exact_mod_cast x.den_pos
  have pa' : (2 : ℚ) ^ (a : Int) ≤ (x.num.natAbs : ℚ) := by
    rw [zpow_natCast]; exact_mod_cast pa
  have pb' : (x.num.natAbs : ℚ) < (2 : ℚ) ^ ((a : Int) + 1) := by
    have : (x.num.natAbs : ℚ) < (2 : ℚ) ^ (a + 1) := by exact_mod_cast pb
    rw [← zpow_natCast] at this; simpa using this
  have qa' : (2 : ℚ) ^ (b : Int) ≤ (x.den : ℚ) := by
    rw [zpow_natCast]; exact_mod_cast qa
  have qb' : (x.den : ℚ) < (2 : ℚ) ^ ((b : Int) + 1) := by
    have : (x.den : ℚ) < (2 : ℚ) ^ (b + 1) := by exact_mod_cast qb
    rw [← zpow_natCast] at this; simpa using this
  have hb0 : (0 : ℚ) < (2 : ℚ) ^ (b : Int) := by positivity
  have hb1 : (0 : ℚ) < (2 : ℚ) ^ ((b : Int) + 1) := by positivity
  -- x lies strictly between 2 ^ (a - b - 1) and 2 ^ (a - b + 1)
  have hup : x < (2 : ℚ) ^ ((a : Int) - b + 1) := by
    rw [hxe, div_lt_iff₀ hq]
    calc (x.num.natAbs : ℚ) < (2 : ℚ) ^ ((a : Int) + 1) := pb'
      _ = (2 : ℚ) ^ ((a : Int) - b + 1) * (2 : ℚ) ^ (b : Int) := by
          rw [← zpow_add₀ (by norm_num : (2 : ℚ) ≠ 0)]; congr 1; ring
      _ ≤ (2 : ℚ) ^ ((a : Int) - b + 1) * (x.den : ℚ) :=
          mul_le_mul_of_nonneg_left qa' (by positivity)
  have hlo : (2 : ℚ) ^ ((a : Int) - b - 1) ≤ x := by
    rw [hxe, le_div_iff₀ hq]
    calc (2 : ℚ) ^ ((a : Int) - b - 1) * (x.den : ℚ)
        ≤ (2 : ℚ) ^ ((a : Int) - b - 1) * (2 : ℚ) ^ ((b : Int) + 1) :=
          mul_le_mul_of_nonneg_left qb'.le (by positivity)
      _ = (2 : ℚ) ^ (a : Int) := by
          rw [← zpow_add₀ (by norm_num : (2 : ℚ) ≠ 0)]; congr 1; ring
      _ ≤ (x.num.natAbs : ℚ) := pa'
  unfold floorLog2
  simp only [← ha, ← hb, pow2_eq]
  split_ifs with h
  · exact (log_two_eq x _ h hup).symm
  · refine (log_two_eq x _ hlo ?_).symm
    have : (a : Int) - b - 1 + 1 = (a : Int) - b := by ring
    rw [this]; exact lt_of_not_le h

/-- The exponent of the unit in the last place, by the binary logarithm. -/
theorem ulpExponent_eq (x : ℚ) (hx : 0 < x) :
    ulpExponent x = max (Int.log 2 x - 52) (-1074) := by
  unfold ulpExponent; rw [floorLog2_eq x hx]

/-- The rounded integer is at most one half away. -/
theorem roundHalfEven_near (m : ℚ) : |((roundHalfEven m : Int) : ℚ) - m| ≤ 1 / 2 := by
  have h1 : (⌊m⌋ : ℚ) ≤ m := Int.floor_le m
  have h2 : m < (⌊m⌋ : ℚ) + 1 := Int.lt_floor_add_one m
  unfold roundHalfEven
  simp only
  split_ifs with a b c
  · rw [abs_le]; constructor <;> linarith
  · rw [abs_le]; push_cast; constructor <;> linarith
  · rw [abs_le]; constructor <;> linarith
  · rw [abs_le]; push_cast; constructor <;> linarith

/-- The nearest `double` of a positive rational is at most half a unit in the
last place away. -/
theorem roundDouble_near (x : ℚ) (hx : 0 < x) :
    |roundDouble x - x| ≤ (2 : ℚ) ^ (ulpExponent x) / 2 := by
  have h2k : (0 : ℚ) < (2 : ℚ) ^ (ulpExponent x) := by positivity
  have hr : roundDouble x
      = ((roundHalfEven (x / (2 : ℚ) ^ (ulpExponent x)) : Int) : ℚ) * (2 : ℚ) ^ (ulpExponent x) := by
    unfold roundDouble
    rw [if_neg hx.ne', abs_of_pos hx]
    simp only [not_lt.2 hx.le, if_false, pow2_eq]
  have hn := roundHalfEven_near (x / (2 : ℚ) ^ (ulpExponent x))
  have e : roundDouble x - x
      = (((roundHalfEven (x / (2 : ℚ) ^ (ulpExponent x)) : Int) : ℚ)
          - x / (2 : ℚ) ^ (ulpExponent x)) * (2 : ℚ) ^ (ulpExponent x) := by
    rw [hr, sub_mul, div_mul_cancel₀ _ h2k.ne']
  rw [e, abs_mul, abs_of_pos h2k]
  calc _ ≤ 1 / 2 * (2 : ℚ) ^ (ulpExponent x) := mul_le_mul_of_nonneg_right hn h2k.le
    _ = (2 : ℚ) ^ (ulpExponent x) / 2 := by ring

/-- In the normal range the nearest `double` differs by at most one part in
`2 ^ 53`. -/
theorem roundDouble_rel (x : ℚ) (hx : (2 : ℚ) ^ (-1022 : Int) ≤ x) :
    |roundDouble x - x| ≤ x * (2 : ℚ) ^ (-53 : Int) := by
  have hpos : 0 < x := lt_of_lt_of_le (by positivity) hx
  have hlog : (-1022 : Int) ≤ Int.log 2 x :=
    (Int.zpow_le_iff_le_log (b := 2) (by norm_num) hpos).1 (by exact_mod_cast hx)
  have hk : ulpExponent x = Int.log 2 x - 52 := by
    rw [ulpExponent_eq x hpos]; exact max_eq_left (by omega)
  have h1 : ((2 : ℕ) : ℚ) ^ (Int.log 2 x) ≤ x := Int.zpow_log_le_self (by norm_num) hpos
  have h := roundDouble_near x hpos
  rw [hk] at h
  have e : (2 : ℚ) ^ (Int.log 2 x - 52) / 2 = (2 : ℚ) ^ (Int.log 2 x) * (2 : ℚ) ^ (-53 : Int) := by
    rw [zpow_sub₀ (by norm_num : (2 : ℚ) ≠ 0)]
    norm_num
    field_simp
    norm_num
  rw [e] at h
  calc _ ≤ (2 : ℚ) ^ (Int.log 2 x) * (2 : ℚ) ^ (-53 : Int) := h
    _ ≤ x * (2 : ℚ) ^ (-53 : Int) :=
        mul_le_mul_of_nonneg_right (by simpa using h1) (by positivity)

/-! ### The view -/

open CellGLView

/-- The identity is a right unit of the product of transforms. -/
theorem QTransform.mul_identity (t : QTransform) : t.mul QTransform.identity = t := by
  cases t; simp [QTransform.mul, QTransform.identity]

/-- Without rotation the scene transform is the scaling by the scale factors
followed by the translation by the pan. -/
theorem sceneTransformations_of_rotate_zero (tr : Trig) (s : CellGLView)
    (h : s.m_rotate = 0) :
    sceneTransformations tr s =
      { m11 := s.m_scaleX, m12 := 0, m21 := 0, m22 := s.m_scaleY
        dx := s.m_panx, dy := s.m_pany } := by
  unfold sceneTransformations
  simp only [h, ne_eq, not_true_eq_false, if_false]
  by_cases hp : s.m_panx ≠ 0 ∨ s.m_pany ≠ 0
  · have hp2 : ¬ (s.m_panx = 0 ∧ s.m_pany = 0) := by tauto
    by_cases hs : s.m_scaleX ≠ 1 ∨ s.m_scaleY ≠ 1
    · have hs2 : ¬ (s.m_scaleX = 1 ∧ s.m_scaleY = 1) := by tauto
      simp only [hp, hs, if_true, QTransform.translate, QTransform.scale, QTransform.identity]
      simp [hp2, hs2]
    · have hs2 : s.m_scaleX = 1 ∧ s.m_scaleY = 1 := by tauto
      simp only [hp, hs, if_true, if_false, QTransform.translate, QTransform.identity]
      simp [hp2, hs2.1, hs2.2]
  · have hp2 : s.m_panx = 0 ∧ s.m_pany = 0 := by tauto
    by_cases hs : s.m_scaleX ≠ 1 ∨ s.m_scaleY ≠ 1
    · have hs2 : ¬ (s.m_scaleX = 1 ∧ s.m_scaleY = 1) := by tauto
      simp only [hp, hs, if_true, if_false, QTransform.scale, QTransform.identity]
      simp [hp2.1, hp2.2, hs2]
    · have hs2 : s.m_scaleX = 1 ∧ s.m_scaleY = 1 := by tauto
      simp only [hp, hs, if_false, QTransform.identity]
      simp [hp2.1, hp2.2, hs2.1, hs2.2]

/-- Covering of the scene by the fill scale up to rounding, for quotients in
the normal range of a `double`. -/
theorem fillScale_cover_rel (view scene : QSizeF) (hsw : 0 < scene.wd) (hsh : 0 < scene.ht)
    (h1 : pow2 (-1022) ≤ view.wd / scene.wd) (h2 : pow2 (-1022) ≤ view.ht / scene.ht) :
    fillScale view scene * scene.wd ≥ view.wd * (1 - pow2 (-53)) ∧
    fillScale view scene * scene.ht ≥ view.ht * (1 - pow2 (-53)) ∧
    (fillScale view scene * scene.wd ≤ view.wd * (1 + pow2 (-53)) ∨
      fillScale view scene * scene.ht ≤ view.ht * (1 + pow2 (-53))) ∧
    ∀ z : ℚ, z * scene.wd ≥ view.wd → z * scene.ht ≥ view.ht →
      fillScale view scene ≤ z * (1 + pow2 (-53)) := by
  rw [pow2_eq] at h1 h2
  simp only [pow2_eq]
  have r1 := abs_le.1 (roundDouble_rel _ h1)
  have r2 := abs_le.1 (roundDouble_rel _ h2)
  have q1 : (0 : ℚ) < view.wd / scene.wd := lt_of_lt_of_le (by positivity) h1
  have q2 : (0 : ℚ) < view.ht / scene.ht := lt_of_lt_of_le (by positivity) h2
  have e1 : view.wd / scene.wd * scene.wd = view.wd := div_mul_cancel₀ _ hsw.ne'
  have e2 : view.ht / scene.ht * scene.ht = view.ht := div_mul_cancel₀ _ hsh.ne'
  have he : (0 : ℚ) < (2 : ℚ) ^ (-53 : Int) := by positivity
  unfold fillScale Double.div
  refine ⟨?_, ?_, ?_, ?_⟩
  · have h : view.wd / scene.wd * (1 - (2 : ℚ) ^ (-53 : Int))
        ≤ max (roundDouble (view.wd / scene.wd)) (roundDouble (view.ht / scene.ht)) :=
      le_trans (by linarith [r1.1]) (le_max_left _ _)
    have := mul_le_mul_of_nonneg_right h hsw.le
    calc view.wd * (1 - (2 : ℚ) ^ (-53 : Int))
        = view.wd / scene.wd * (1 - (2 : ℚ) ^ (-53 : Int)) * scene.wd := by
          rw [mul_right_comm, e1]
      _ ≤ _ := this
  · have h : view.ht / scene.ht * (1 - (2 : ℚ) ^ (-53 : Int))
        ≤ max (roundDouble (view.wd / scene.wd)) (roundDouble (view.ht / scene.ht)) :=
      le_trans (by linarith [r2.1]) (le_max_right _ _)
    have := mul_le_mul_of_nonneg_right h hsh.le
    calc view.ht * (1 - (2 : ℚ) ^ (-53 : Int))
        = view.ht / scene.ht * (1 - (2 : ℚ) ^ (-53 : Int)) * scene.ht := by
          rw [mul_right_comm, e2]
      _ ≤ _ := this
  · rcases max_choice (roundDouble (view.wd / scene.wd)) (roundDouble (view.ht / scene.ht))
      with h | h
    · left
      rw [h]
      have : roundDouble (view.wd / scene.wd)
          ≤ view.wd / scene.wd * (1 + (2 : ℚ) ^ (-53 : Int)) := by linarith [r1.2]
      have := mul_le_mul_of_nonneg_right this hsw.le
      calc _ ≤ view.wd / scene.wd * (1 + (2 : ℚ) ^ (-53 : Int)) * scene.wd := this
        _ = view.wd * (1 + (2 : ℚ) ^ (-53 : Int)) := by rw [mul_right_comm, e1]
    · right
      rw [h]
      have : roundDouble (view.ht / scene.ht)
          ≤ view.ht / scene.ht * (1 + (2 : ℚ) ^ (-53 : Int)) := by linarith [r2.2]
      have := mul_le_mul_of_nonneg_right this hsh.le
      calc _ ≤ view.ht / scene.ht * (1 + (2 : ℚ) ^ (-53 : Int)) * scene.ht := this
        _ = view.ht * (1 + (2 : ℚ) ^ (-53 : Int)) := by rw [mul_right_comm, e2]
  · intro z hz1 hz2
    have a1 : view.wd / scene.wd ≤ z := by rw [div_le_iff₀ hsw]; exact hz1
    have a2 : view.ht / scene.ht ≤ z := by rw [div_le_iff₀ hsh]; exact hz2
    have hone : (0 : ℚ) ≤ 1 + (2 : ℚ) ^ (-53 : Int) := by linarith
    apply max_le
    · calc roundDouble (view.wd / scene.wd)
          ≤ view.wd / scene.wd * (1 + (2 : ℚ) ^ (-53 : Int)) := by linarith [r1.2]
        _ ≤ z * (1 + (2 : ℚ) ^ (-53 : Int)) := mul_le_mul_of_nonneg_right a1 hone
    · calc roundDouble (view.ht / scene.ht)
          ≤ view.ht / scene.ht * (1 + (2 : ℚ) ^ (-53 : Int)) := by linarith [r2.2]
        _ ≤ z * (1 + (2 : ℚ) ^ (-53 : Int)) := mul_le_mul_of_nonneg_right a2 hone

/-- The zoom stored by `setZoom` is the clamped request. -/
theorem setZoom_m_zoom (tr : Trig) (s : CellGLView) (zoom : QSizeF) :
    (setZoom tr s zoom).m_zoom = STMath.clamp zoom DEFAULT_ZOOM_MIN DEFAULT_ZOOM_MAX := by
  unfold setZoom
  by_cases h : s.m_zoom = STMath.clamp zoom DEFAULT_ZOOM_MIN DEFAULT_ZOOM_MAX
  · simp [h]
  · simp [h, update, setTransformZoom]

/-- The clamped size is a multiple of the request. -/
theorem clamp_ratio (zoom mn mx : QSizeF) :
    (STMath.clamp zoom mn mx).wd * zoom.ht = (STMath.clamp zoom mn mx).ht * zoom.wd := by
  unfold STMath.clamp
  simp only [QSizeF.smul]
  split_ifs <;> ring

/-- A request that fits is clamped into the range. -/
theorem clamp_inRange (zoom : QSizeF) (h : zoomFits zoom) :
    zoomInRange (STMath.clamp zoom DEFAULT_ZOOM_MIN DEFAULT_ZOOM_MAX) := by
  obtain ⟨hw, hh, h1, h2⟩ := h
  unfold STMath.clamp zoomInRange
  simp only [DEFAULT_ZOOM_MIN, DEFAULT_ZOOM_MAX, QSizeF.smul]
  by_cases hlow : zoom.wd < 1 ∨ zoom.ht < 1
  · simp only [hlow, if_true]
    rcases le_total (1 / zoom.wd) (1 / zoom.ht) with hle | hle
    · have hmax : max (1 / zoom.wd) (1 / zoom.ht) = 1 / zoom.ht := max_eq_right hle
      have e1 : zoom.ht * (1 / zoom.ht) = 1 := by field_simp
      have hge : zoom.ht ≤ zoom.wd := by
        rw [div_le_div_iff₀ hw hh] at hle; linarith
      have e2 : 1 ≤ zoom.wd * (1 / zoom.ht) := by
        rw [mul_one_div, le_div_iff₀ hh]; linarith
      have e3 : zoom.wd * (1 / zoom.ht) ≤ 20 := by
        rw [mul_one_div, div_le_iff₀ hh]; linarith
      have hno : ¬ (zoom.wd * (1 / zoom.ht) > 20 ∨ zoom.ht * (1 / zoom.ht) > 20) := by
        rw [e1]; push_neg; exact ⟨e3, by norm_num⟩
      simp only [hmax]
      rw [if_neg hno]
      simp only [e1]
      exact ⟨e2, e3, le_refl _, by norm_num⟩
    · have hmax : max (1 / zoom.wd) (1 / zoom.ht) = 1 / zoom.wd := max_eq_left hle
      have e1 : zoom.wd * (1 / zoom.wd) = 1 := by field_simp
      have hge : zoom.wd ≤ zoom.ht := by
        rw [div_le_div_iff₀ hh hw] at hle; linarith
      have e2 : 1 ≤ zoom.ht * (1 / zoom.wd) := by
        rw [mul_one_div, le_div_iff₀ hw]; linarith
      have e3 : zoom.ht * (1 / zoom.wd) ≤ 20 := by
        rw [mul_one_div, div_le_iff₀ hw]; linarith
      have hno : ¬ (zoom.wd * (1 / zoom.wd) > 20 ∨ zoom.ht * (1 / zoom.wd) > 20) := by
        rw [e1]; push_neg; exact ⟨by norm_num, e3⟩
      simp only [hmax]
      rw [if_neg hno]
      simp only [e1]
      exact ⟨le_refl _, by norm_num, e2, e3⟩
  · simp only [hlow, if_false]
    push_neg at hlow
    by_cases hhigh : zoom.wd > 20 ∨ zoom.ht > 20
    · simp only [hhigh, if_true]
      rcases le_total (20 / zoom.wd) (20 / zoom.ht) with hle | hle
      · have hmin : min (20 / zoom.wd) (20 / zoom.ht) = 20 / zoom.wd := min_eq_left hle
        have e1 : zoom.wd * (20 / zoom.wd) = 20 := by field_simp
        have hge : zoom.ht ≤ zoom.wd := by
          rw [div_le_div_iff₀ hw hh] at hle; linarith
        have e2 : 1 ≤ zoom.ht * (20 / zoom.wd) := by
          rw [mul_div_assoc', le_div_iff₀ hw]; linarith
        have e3 : zoom.ht * (20 / zoom.wd) ≤ 20 := by
          rw [mul_div_assoc', div_le_iff₀ hw]; linarith
        simp only [hmin, e1]
        exact ⟨by norm_num, le_refl _, e2, e3⟩
      · have hmin : min (20 / zoom.wd) (20 / zoom.ht) = 20 / zoom.ht := min_eq_right hle
        have e1 : zoom.ht * (20 / zoom.ht) = 20 := by field_simp
        have hge : zoom.wd ≤ zoom.ht := by
          rw [div_le_div_iff₀ hh hw] at hle; linarith
        have e2 : 1 ≤ zoom.wd * (20 / zoom.ht) := by
          rw [mul_div_assoc', le_div_iff₀ hh]; linarith
        have e3 : zoom.wd * (20 / zoom.ht) ≤ 20 := by
          rw [mul_div_assoc', div_le_iff₀ hh]; linarith
        simp only [hmin, e1]
        exact ⟨e2, e3, by norm_num, le_refl _⟩
    · simp only [hhigh, if_false]
      push_neg at hhigh
      exact ⟨hlow.1, hhigh.1, hlow.2, hhigh.2⟩

/-- No zoom in the range has the aspect ratio `1 : 100`: whatever a clamp
returns for the request `(1, 100)`, it leaves the range or the ratio. -/
theorem zoomInRange_ratio_bound (z : QSizeF) (h : zoomInRange z) : z.wd * 100 ≠ z.ht * 1 := by
  obtain ⟨h1, _, _, h4⟩ := h
  simp only [DEFAULT_ZOOM_MIN, DEFAULT_ZOOM_MAX] at h1 h4
  intro he
  linarith

/-- A positive multiple of a zoom in the range fits. -/
theorem zoomFits_smul (f : ℚ) (z : QSizeF) (hf : 0 < f) (hz : zoomInRange z) :
    zoomFits (QSizeF.smul f z) := by
  obtain ⟨h1, h2, h3, h4⟩ := hz
  simp only [DEFAULT_ZOOM_MIN, DEFAULT_ZOOM_MAX] at h1 h2 h3 h4
  have hw : 0 < z.wd := by linarith
  have hh : 0 < z.ht := by linarith
  refine ⟨mul_pos hw hf, mul_pos hh hf, ?_, ?_⟩
  · simp only [QSizeF.smul]
    have : z.wd ≤ 20 * z.ht := by linarith
    nlinarith
  · simp only [QSizeF.smul]
    have : z.ht ≤ 20 * z.wd := by linarith
    nlinarith

/-- One fitting zoom operation keeps the zoom in the range. -/
theorem ZoomOp.apply_inRange (tr : Trig) (s : CellGLView) (op : ZoomOp)
    (hs : zoomInRange s.m_zoom) (hop : op.fits) : zoomInRange (op.apply tr s).m_zoom := by
  cases op with
  | setZoom zoom => exact (setZoom_m_zoom tr s zoom) ▸ clamp_inRange zoom hop
  | zoomIn =>
    exact (setZoom_m_zoom tr s _) ▸
      clamp_inRange _ (zoomFits_smul _ _ (by norm_num [DEFAULT_ZOOM_IN]) hs)
  | zoomOut =>
    exact (setZoom_m_zoom tr s _) ▸
      clamp_inRange _ (zoomFits_smul _ _ (by norm_num [DEFAULT_ZOOM_OUT]) hs)
  | wheelEvent f =>
    exact (setZoom_m_zoom tr s _) ▸ clamp_inRange _ (zoomFits_smul _ _ hop hs)

/-- A sequence of fitting zoom operations keeps the zoom in the range. -/
theorem ZoomOp.foldl_apply_inRange (tr : Trig) (ops : List ZoomOp) (s : CellGLView)
    (hs : zoomInRange s.m_zoom) (hops : ∀ op ∈ ops, op.fits) :
    zoomInRange (ops.foldl (ZoomOp.apply tr) s).m_zoom := by
  induction ops generalizing s with
  | nil => exact hs
  | cons op ops ih =>
    rw [List.foldl_cons]
    exact ih _ (ZoomOp.apply_inRange tr s op hs (hops op (List.mem_cons_self _ _)))
      (fun o ho => hops o (List.mem_cons_of_mem _ ho))

/-- A rectangle that contains another one intersects it. -/
theorem QRectF.contains_imp_intersects (b r : QRectF) (h : b.contains r = true) :
    b.intersects r = true := by
  unfold QRectF.contains at h
  unfold QRectF.intersects
  simp only [] at h ⊢
  split_ifs at h with c1 c2 c3 c4 c5 c6
  have hx : QRectF.lo r.xp r.w ≤ QRectF.hi r.xp r.w := by
    unfold QRectF.lo QRectF.hi; split_ifs <;> linarith
  have hy : QRectF.lo r.yp r.h ≤ QRectF.hi r.yp r.h := by
    unfold QRectF.lo QRectF.hi; split_ifs <;> linarith
  push_neg at c3 c6
  have hx2 := lt_of_le_of_ne hx c2
  have hy2 := lt_of_le_of_ne hy c5
  have n3 : ¬ (QRectF.lo b.xp b.w ≥ QRectF.hi r.xp r.w ∨
      QRectF.lo r.xp r.w ≥ QRectF.hi b.xp b.w) := by
    push_neg; constructor <;> linarith [c3.1, c3.2]
  have n6 : ¬ (QRectF.lo b.yp b.h ≥ QRectF.hi r.yp r.h ∨
      QRectF.lo r.yp r.h ≥ QRectF.hi b.yp b.h) := by
    push_neg; constructor <;> linarith [c6.1, c6.2]
  simp [c1, c2, c4, c5, n3, n6]

/-- Two rectangles without a common point do not intersect. -/
theorem QRectF.not_intersects_of_disjoint (b r : QRectF)
    (h : ∀ p, r.containsPoint p = true → b.containsPoint p = false) :
    b.intersects r = false := by
  cases hint : b.intersects r with
  | false => rfl
  | true =>
    exfalso
    unfold QRectF.intersects at hint
    simp only [] at hint
    split_ifs at hint with c1 c2 c3 c4 c5 c6
    push_neg at c3 c6
    have hbx : QRectF.lo b.xp b.w ≤ QRectF.hi b.xp b.w := by
      unfold QRectF.lo QRectF.hi; split_ifs <;> linarith
    have hby : QRectF.lo b.yp b.h ≤ QRectF.hi b.yp b.h := by
      unfold QRectF.lo QRectF.hi; split_ifs <;> linarith
    have hrx : QRectF.lo r.xp r.w ≤ QRectF.hi r.xp r.w := by
      unfold QRectF.lo QRectF.hi; split_ifs <;> linarith
    have hry : QRectF.lo r.yp r.h ≤ QRectF.hi r.yp r.h := by
      unfold QRectF.lo QRectF.hi; split_ifs <;> linarith
    have hp := h (QPointF.mk (max (QRectF.lo b.xp b.w) (QRectF.lo r.xp r.w))
        (max (QRectF.lo b.yp b.h) (QRectF.lo r.yp r.h)))
    have x1 : ¬ (max (QRectF.lo b.xp b.w) (QRectF.lo r.xp r.w) < QRectF.lo r.xp r.w ∨
        max (QRectF.lo b.xp b.w) (QRectF.lo r.xp r.w) > QRectF.hi r.xp r.w) := by
      push_neg; exact ⟨le_max_right _ _, max_le c3.1.le hrx⟩
    have y1 : ¬ (max (QRectF.lo b.yp b.h) (QRectF.lo r.yp r.h) < QRectF.lo r.yp r.h ∨
        max (QRectF.lo b.yp b.h) (QRectF.lo r.yp r.h) > QRectF.hi r.yp r.h) := by
      push_neg; exact ⟨le_max_right _ _, max_le c6.1.le hry⟩
    have x2 : ¬ (max (QRectF.lo b.xp b.w) (QRectF.lo r.xp r.w) < QRectF.lo b.xp b.w ∨
        max (QRectF.lo b.xp b.w) (QRectF.lo r.xp r.w) > QRectF.hi b.xp b.w) := by
      push_neg; exact ⟨le_max_left _ _, max_le hbx c3.2.le⟩
    have y2 : ¬ (max (QRectF.lo b.yp b.h) (QRectF.lo r.yp r.h) < QRectF.lo b.yp b.h ∨
        max (QRectF.lo b.yp b.h) (QRectF.lo r.yp r.h) > QRectF.hi b.yp b.h) := by
      push_neg; exact ⟨le_max_left _ _, max_le hby c6.2.le⟩
    have hr : r.containsPoint (QPointF.mk (max (QRectF.lo b.xp b.w) (QRectF.lo r.xp r.w))
        (max (QRectF.lo b.yp b.h) (QRectF.lo r.yp r.h))) = true := by
      unfold QRectF.containsPoint
      simp only []
      rw [if_neg c2, if_neg x1, if_neg c5, if_neg y1]
    have hb : b.containsPoint (QPointF.mk (max (QRectF.lo b.xp b.w) (QRectF.lo r.xp r.w))
        (max (QRectF.lo b.yp b.h) (QRectF.lo r.yp r.h))) = true := by
      unfold QRectF.containsPoint
      simp only []
      rw [if_neg c1, if_neg x2, if_neg c4, if_neg y2]
    rw [hp hr] at hb
    exact absurd hb (by decide)

/-- The composed transform of a node depends on the view only through the
viewport, the rotation, the pan and the scale factors. -/
theorem composedTransform_congr (tr : Trig) (s s2 : CellGLView) (n : GraphicItemGL)
    (h1 : s2.m_viewport = s.m_viewport) (h2 : s2.m_rotate = s.m_rotate)
    (h3 : s2.m_panx = s.m_panx) (h4 : s2.m_pany = s.m_pany)
    (h5 : s2.m_scaleX = s.m_scaleX) (h6 : s2.m_scaleY = s.m_scaleY) :
    composedTransform tr s2 n = composedTransform tr s n := by
  simp only [composedTransform, nodeTransformations, sceneTransformations, h1, h2, h3, h4, h5, h6]

/-- The loop body of the render pass appends the draw call of a visible node
and restores the model-view matrix and its stack. -/
theorem paintNode_eq (env : Env) (s : CellGLView) (p : QGLPainter) (node : NodePtr) :
    paintNode env s p node = { p with calls := p.calls ++ drawCalls env s p.modelView [node] } := by
  unfold paintNode drawCalls
  by_cases h : (env.node node).visible = true
  · simp [h, QGLPainter.push, QGLPainter.pop, QGLPainter.mulModelView, QGLPainter.draw]
  · simp [h]

/-- The node loop of the render pass appends the draw calls of the visible
nodes in list order. -/
theorem foldl_paintNode (env : Env) (s : CellGLView) (nodes : List NodePtr) (p : QGLPainter) :
    nodes.foldl (paintNode env s) p
      = { p with calls := p.calls ++ drawCalls env s p.modelView nodes } := by
  induction nodes generalizing p with
  | nil => simp [drawCalls]
  | cons n ns ih =>
    rw [List.foldl_cons, ih, paintNode_eq]
    simp only [drawCalls, List.filterMap_cons, List.filterMap_nil]
    by_cases h : (env.node n).visible = true
    · simp [h]
    · simp [h]

/-- The draw calls of a render pass. -/
theorem paintGL_calls (env : Env) (s : CellGLView) :
    (paintGL env s).calls = drawCalls env s QTransform.identity s.m_nodes := by
  unfold paintGL
  rw [foldl_paintNode]
  simp [QGLPainter.start]

/-! ## Claims -/

/-- C1, at a failing input: the example view is panned by `(5, 0)` and holds
one selectable, transformable node; a left-button press at the device point
`(10, 10)` is delivered with the local position `(10, 10)`, while the inverse
of the composed transform of the node (which includes the pan) maps the device
point to `(5, 10)`. -/
theorem mousePressEvent_omits_sceneTransformations :
    (mousePressEvent Example.env Example.pannedView
        (Example.mouse MouseButton.LeftButton 10 10)).2
      = [Delivery.mousePressEvent 1
          (newEvent (Example.mouse MouseButton.LeftButton 10 10) { xp := 10, yp := 10 })] ∧
    (composedTransform Example.trig Example.pannedView Example.item).inverted.mapF
        { xp := 10, yp := 10 } = { xp := 5, yp := 10 } := by
  decide!

/-- C2, as stated, fails: the request `(1, 100)` is stored as `(1 / 5, 20)`,
whose width is below `DEFAULT_ZOOM_MIN`. -/
theorem setZoom_range_counterexample :
    (setZoom Example.trig Example.view { wd := 1, ht := 100 }).m_zoom
        = { wd := 1 / 5, ht := 20 } ∧
    ¬ zoomInRange (setZoom Example.trig Example.view { wd := 1, ht := 100 }).m_zoom := by
  decide!

/-- C2, amended: for every state, a request with positive components whose
ratio lies between `1 / 20` and `20` is stored with both components in
`[DEFAULT_ZOOM_MIN, DEFAULT_ZOOM_MAX]`; the stored zoom of every request is a
multiple of the request (both axes scaled by the same factor); and every
sequence of `setZoom` with such requests, `zoomIn`, `zoomOut` and wheel events
with a positive factor keeps a zoom that is in the range in the range. -/
theorem setZoom_zoom_range (tr : Trig) (s : CellGLView) :
    (∀ zoom, zoomFits zoom → zoomInRange (setZoom tr s zoom).m_zoom) ∧
    (∀ zoom, (setZoom tr s zoom).m_zoom.wd * zoom.ht
        = (setZoom tr s zoom).m_zoom.ht * zoom.wd) ∧
    (∀ ops : List ZoomOp, zoomInRange s.m_zoom → (∀ op ∈ ops, op.fits) →
      zoomInRange (ops.foldl (ZoomOp.apply tr) s).m_zoom) := by
  refine ⟨fun zoom h => ?_, fun zoom => ?_,
    fun ops hs hops => ZoomOp.foldl_apply_inRange tr ops s hs hops⟩
  · rw [setZoom_m_zoom]; exact clamp_inRange zoom h
  · rw [setZoom_m_zoom]; exact clamp_ratio zoom _ _

/-- C2, amended, at the example view: the request `(40, 2)` fits, and the
sequence zoom in, wheel by the factor `2`, `setZoom (40, 2)` fits. -/
theorem setZoom_zoom_range_witness :
    zoomFits { wd := 40, ht := 2 } ∧
    zoomInRange (setZoom Example.trig Example.view { wd := 40, ht := 2 }).m_zoom ∧
    zoomInRange Example.view.m_zoom ∧
    zoomInRange
      ([ZoomOp.zoomIn, ZoomOp.wheelEvent 2, ZoomOp.setZoom { wd := 40, ht := 2 }].foldl
        (ZoomOp.apply Example.trig) Example.view).m_zoom :=
  ⟨by decide!,
    (setZoom_zoom_range Example.trig Example.view).1 { wd := 40, ht := 2 } (by decide!),
    by decide!,
    (setZoom_zoom_range Example.trig Example.view).2.2
      [ZoomOp.zoomIn, ZoomOp.wheelEvent 2, ZoomOp.setZoom { wd := 40, ht := 2 }]
      (by decide!)
      (by
        intro op hop
        simp only [List.mem_cons, List.mem_singleton, List.not_mem_nil, or_false] at hop
        rcases hop with h | h | h
        · rw [h]; exact trivial
        · rw [h]; show (0 : ℚ) < 2; norm_num
        · rw [h]; show zoomFits { wd := 40, ht := 2 }; decide!)⟩

/-- C3, at a failing input: from the angle `0` of the example view the accepted
calls `rotate(180)`, `rotate(170)`, `rotate(180)` store the angle `530`,
which is above `360`; three calls `rotate(170)` store `170`, as the second
and the third call are not applied. -/
theorem rotate_leaves_range :
    ((Example.view.rotate 180).rotate 170).m_rotate = 350 ∧
    (((Example.view.rotate 180).rotate 170).rotate 180).m_rotate = 530 ∧
    ¬ (((Example.view.rotate 180).rotate 170).rotate 180).m_rotate ≤ 360 ∧
    (((Example.view.rotate 170).rotate 170).rotate 170).m_rotate = 170 := by
  decide!

/-- C4, at the failing inputs: at the angle `5` the call `rotate(0)` requests a
redraw though the angle stays `5`; at the angle `90` the call `rotate(90)`
changes nothing though the resulting angle `180` differs from `90`. -/
theorem rotate_guard_compares_delta :
    (Example.view.rotate 5).m_rotate = 5 ∧
    ((Example.view.rotate 5).rotate 0).m_rotate = 5 ∧
    ((Example.view.rotate 5).rotate 0).updates = (Example.view.rotate 5).updates + 1 ∧
    (Example.view.rotate 90).m_rotate = 90 ∧
    (Example.view.rotate 90).rotate 90 = Example.view.rotate 90 := by
  decide!

/-- C5: for every state and every zoom, a second `setZoom` with the same
request changes nothing (zoom, scale factors and the number of requested
redraws stay as they are after the first call); the two calls together request
one redraw when the clamped request differs from the zoom stored before, and
none when it equals it. -/
theorem setZoom_twice (tr : Trig) (s : CellGLView) (zoom : QSizeF) :
    setZoom tr (setZoom tr s zoom) zoom = setZoom tr s zoom ∧
    (s.m_zoom ≠ STMath.clamp zoom DEFAULT_ZOOM_MIN DEFAULT_ZOOM_MAX →
      (setZoom tr (setZoom tr s zoom) zoom).updates = s.updates + 1) ∧
    (s.m_zoom = STMath.clamp zoom DEFAULT_ZOOM_MIN DEFAULT_ZOOM_MAX →
      (setZoom tr (setZoom tr s zoom) zoom).updates = s.updates) := by
  have hz := setZoom_m_zoom tr s zoom
  have h2 : setZoom tr (setZoom tr s zoom) zoom = setZoom tr s zoom := by
    generalize setZoom tr s zoom = s1 at hz
    unfold setZoom
    simp [hz]
  refine ⟨h2, ?_, ?_⟩
  · intro h
    rw [h2]
    unfold setZoom
    simp [h, update, setTransformZoom]
  · intro h
    rw [h2]
    unfold setZoom
    simp [h]

/-- C5 at the example view: two calls `setZoom (2, 2)` at the zoom `(1, 1)`
request one redraw, two calls `setZoom (1, 1)` none. -/
theorem setZoom_twice_witness :
    (setZoom Example.trig (setZoom Example.trig Example.view { wd := 2, ht := 2 })
        { wd := 2, ht := 2 }).updates = Example.view.updates + 1 ∧
    (setZoom Example.trig (setZoom Example.trig Example.view { wd := 1, ht := 1 })
        { wd := 1, ht := 1 }).updates = Example.view.updates :=
  ⟨(setZoom_twice Example.trig Example.view { wd := 2, ht := 2 }).2.1 (by decide!),
   (setZoom_twice Example.trig Example.view { wd := 1, ht := 1 }).2.2 (by decide!)⟩

/-- The scenario of C6: with viewport `(0,0,800,600)`, scene `(0,0,400,300)`
and scale factors `(1, 1)` before the first run, zoom `(1, 1)` gives the scale
factors `(2, 2)` on the first and on the second run, and zoom `(2, 2)` gives
`(4, 4)` on the first and on the second run. -/
theorem setTransformZoom_example :
    (setTransformZoom Example.trig Example.view { wd := 1, ht := 1 }).m_scaleX = 2 ∧
    (setTransformZoom Example.trig Example.view { wd := 1, ht := 1 }).m_scaleY = 2 ∧
    (setTransformZoom Example.trig
      (setTransformZoom Example.trig Example.view { wd := 1, ht := 1 })
      { wd := 1, ht := 1 }).m_scaleX = 2 ∧
    (setTransformZoom Example.trig
      (setTransformZoom Example.trig Example.view { wd := 1, ht := 1 })
      { wd := 1, ht := 1 }).m_scaleY = 2 ∧
    (setTransformZoom Example.trig Example.view { wd := 2, ht := 2 }).m_scaleX = 4 ∧
    (setTransformZoom Example.trig Example.view { wd := 2, ht := 2 }).m_scaleY = 4 ∧
    (setTransformZoom Example.trig
      (setTransformZoom Example.trig Example.view { wd := 2, ht := 2 })
      { wd := 2, ht := 2 }).m_scaleX = 4 ∧
    (setTransformZoom Example.trig
      (setTransformZoom Example.trig Example.view { wd := 2, ht := 2 })
      { wd := 2, ht := 2 }).m_scaleY = 4 := by
  decide!

/-- Equal scale factors other than `(1, 1)` before the call: with viewport
`(0,0,1280,720)`, scene `(0,0,700,350)`, scale factors `(7, 7)` and zoom
`(2, 2)` the recompute leaves `4.114285714285715`, while `z * zw` for the
fill scale `z` of the stored rectangles is `4.114285714285714`. -/
theorem setTransformZoom_rounding_example :
    (setTransformZoom Example.trig Example.wideView7 { wd := 2, ht := 2 }).m_scaleX
      = 4632273902438225 / 1125899906842624 ∧
    Double.mul
        (fillScale Example.wideView7.m_viewport.size Example.wideView7.m_scene.size) 2
      = 289517118902389 / 70368744177664 := by
  decide!

/-- C7, as stated, fails in `double` arithmetic: for the viewport
`(0,0,1280,720)` and the scene `(0,0,700,350)` the fill scale that
`setTransformZoom` computes is the `double` `2.057142857142857`, which is
smaller than `72 / 35`; `z * 350` is smaller than `720`, as an exact product
and as a product of `double` values (`719.9999999999999`), and on no axis
is the product equal to the side of the viewport. -/
theorem fillScale_cover_counterexample :
    mappedSceneSize Example.trig Example.wideView = { wd := 700, ht := 350 } ∧
    fillScale Example.wideView.m_viewport.size (mappedSceneSize Example.trig Example.wideView)
      = 289517118902389 / 140737488355328 ∧
    (setTransformZoom Example.trig Example.wideView { wd := 1, ht := 1 }).m_scaleY
      = 289517118902389 / 140737488355328 ∧
    (289517118902389 / 140737488355328 : ℚ) * 350 < 720 ∧
    Double.mul (289517118902389 / 140737488355328) 350 = 6333186975989759 / 8796093022208 ∧
    (6333186975989759 / 8796093022208 : ℚ) < 720 ∧
    Double.mul (289517118902389 / 140737488355328) 700 ≠ 1280 := by
  decide!

/-- C7, amended: the fill scale `z` that `setTransformZoom` multiplies into
the scale factors is the larger of the two `double` quotients of the sides
of the viewport by the sides of the measured scene (the image of the stored
scene under the scene transform): it is at least each quotient, it is one of
them, and no smaller number is at least both.  For a measured scene of
positive width and height and quotients that are exact, `z` makes the
measured scene cover the viewport (`z * scene.w ≥ view.w` and
`z * scene.h ≥ view.h`) with equality on at least one axis, and every factor
that makes it cover the viewport is at least `z`.  For quotients in the
normal range of a `double` the same holds up to one part in `2 ^ 53`:
`z * scene.w ≥ view.w * (1 - 2 ^ (-53))`, likewise for the height,
`z * scene.w ≤ view.w * (1 + 2 ^ (-53))` or likewise for the height, and
`z ≤ z' * (1 + 2 ^ (-53))` for every factor `z'` that makes the measured scene
cover the viewport. -/
theorem fillScale_largest_quotient (tr : Trig) (s : CellGLView) (zoom : QSizeF) :
    (setTransformZoom tr s zoom).m_scaleX
      = Double.mul
          (Double.mul (fillScale s.m_viewport.size (mappedSceneSize tr s)) zoom.wd)
          s.m_scaleX ∧
    (setTransformZoom tr s zoom).m_scaleY
      = Double.mul
          (Double.mul (fillScale s.m_viewport.size (mappedSceneSize tr s)) zoom.ht)
          s.m_scaleY ∧
    Double.div s.m_viewport.w (mappedSceneSize tr s).wd
      ≤ fillScale s.m_viewport.size (mappedSceneSize tr s) ∧
    Double.div s.m_viewport.h (mappedSceneSize tr s).ht
      ≤ fillScale s.m_viewport.size (mappedSceneSize tr s) ∧
    (fillScale s.m_viewport.size (mappedSceneSize tr s)
        = Double.div s.m_viewport.w (mappedSceneSize tr s).wd ∨
      fillScale s.m_viewport.size (mappedSceneSize tr s)
        = Double.div s.m_viewport.h (mappedSceneSize tr s).ht) ∧
    (∀ z : ℚ, Double.div s.m_viewport.w (mappedSceneSize tr s).wd ≤ z →
      Double.div s.m_viewport.h (mappedSceneSize tr s).ht ≤ z →
      fillScale s.m_viewport.size (mappedSceneSize tr s) ≤ z) ∧
    (0 < (mappedSceneSize tr s).wd → 0 < (mappedSceneSize tr s).ht →
      Double.div s.m_viewport.w (mappedSceneSize tr s).wd
        = s.m_viewport.w / (mappedSceneSize tr s).wd →
      Double.div s.m_viewport.h (mappedSceneSize tr s).ht
        = s.m_viewport.h / (mappedSceneSize tr s).ht →
      fillScale s.m_viewport.size (mappedSceneSize tr s) * (mappedSceneSize tr s).wd
        ≥ s.m_viewport.w ∧
      fillScale s.m_viewport.size (mappedSceneSize tr s) * (mappedSceneSize tr s).ht
        ≥ s.m_viewport.h ∧
      (fillScale s.m_viewport.size (mappedSceneSize tr s) * (mappedSceneSize tr s).wd
          = s.m_viewport.w ∨
        fillScale s.m_viewport.size (mappedSceneSize tr s) * (mappedSceneSize tr s).ht
          = s.m_viewport.h) ∧
      ∀ z : ℚ, z * (mappedSceneSize tr s).wd ≥ s.m_viewport.w →
        z * (mappedSceneSize tr s).ht ≥ s.m_viewport.h →
        z ≥ fillScale s.m_viewport.size (mappedSceneSize tr s)) ∧
    (0 < (mappedSceneSize tr s).wd → 0 < (mappedSceneSize tr s).ht →
      pow2 (-1022) ≤ s.m_viewport.w / (mappedSceneSize tr s).wd →
      pow2 (-1022) ≤ s.m_viewport.h / (mappedSceneSize tr s).ht →
      fillScale s.m_viewport.size (mappedSceneSize tr s) * (mappedSceneSize tr s).wd
        ≥ s.m_viewport.w * (1 - pow2 (-53)) ∧
      fillScale s.m_viewport.size (mappedSceneSize tr s) * (mappedSceneSize tr s).ht
        ≥ s.m_viewport.h * (1 - pow2 (-53)) ∧
      (fillScale s.m_viewport.size (mappedSceneSize tr s) * (mappedSceneSize tr s).wd
          ≤ s.m_viewport.w * (1 + pow2 (-53)) ∨
        fillScale s.m_viewport.size (mappedSceneSize tr s) * (mappedSceneSize tr s).ht
          ≤ s.m_viewport.h * (1 + pow2 (-53))) ∧
      ∀ z : ℚ, z * (mappedSceneSize tr s).wd ≥ s.m_viewport.w →
        z * (mappedSceneSize tr s).ht ≥ s.m_viewport.h →
        fillScale s.m_viewport.size (mappedSceneSize tr s) ≤ z * (1 + pow2 (-53))) := by
  refine ⟨rfl, rfl, le_max_left _ _, le_max_right _ _, ?_, fun z h1 h2 => max_le h1 h2, ?_,
    fun hsw hsh h1 h2 =>
      fillScale_cover_rel s.m_viewport.size (mappedSceneSize tr s) hsw hsh h1 h2⟩
  · rcases le_total (Double.div s.m_viewport.w (mappedSceneSize tr s).wd)
        (Double.div s.m_viewport.h (mappedSceneSize tr s).ht) with h | h
    · right; exact max_eq_right h
    · left; exact max_eq_left h
  · intro hsw hsh e1 e2
    have hz : fillScale s.m_viewport.size (mappedSceneSize tr s)
        = max (s.m_viewport.w / (mappedSceneSize tr s).wd)
            (s.m_viewport.h / (mappedSceneSize tr s).ht) := by
      unfold fillScale
      rw [← e1, ← e2]
      rfl
    rw [hz]
    refine ⟨?_, ?_, ?_, ?_⟩
    · have h := mul_le_mul_of_nonneg_right
        (le_max_left (s.m_viewport.w / (mappedSceneSize tr s).wd)
          (s.m_viewport.h / (mappedSceneSize tr s).ht)) hsw.le
      rwa [div_mul_cancel₀ _ hsw.ne.symm] at h
    · have h := mul_le_mul_of_nonneg_right
        (le_max_right (s.m_viewport.w / (mappedSceneSize tr s).wd)
          (s.m_viewport.h / (mappedSceneSize tr s).ht)) hsh.le
      rwa [div_mul_cancel₀ _ hsh.ne.symm] at h
    · rcases le_total (s.m_viewport.w / (mappedSceneSize tr s).wd)
          (s.m_viewport.h / (mappedSceneSize tr s).ht) with h | h
      · right; rw [max_eq_right h, div_mul_cancel₀ _ hsh.ne.symm]
      · left; rw [max_eq_left h, div_mul_cancel₀ _ hsw.ne.symm]
    · intro z h1 h2
      apply max_le
      · rw [div_le_iff₀ hsw]; exact h1
      · rw [div_le_iff₀ hsh]; exact h2

/-- C7, amended, at the viewport `(0,0,800,600)` and the scene
`(0,0,400,200)` with the scale factors `(1, 1)`: the quotients `2` and `3` are
exact, the fill scale is `3`, it covers the width with room and the height
exactly; and at the viewport `(0,0,1280,720)` and the scene `(0,0,700,350)`,
whose quotients are not exact: the fill scale covers both sides up to one
part in `2 ^ 53`. -/
theorem fillScale_largest_quotient_witness :
    mappedSceneSize Example.trig Example.flatView = { wd := 400, ht := 200 } ∧
    fillScale Example.flatView.m_viewport.size (mappedSceneSize Example.trig Example.flatView)
      = 3 ∧
    (fillScale Example.flatView.m_viewport.size (mappedSceneSize Example.trig Example.flatView)
        * (mappedSceneSize Example.trig Example.flatView).wd
        ≥ Example.flatView.m_viewport.w ∧
      fillScale Example.flatView.m_viewport.size (mappedSceneSize Example.trig Example.flatView)
        * (mappedSceneSize Example.trig Example.flatView).ht
        ≥ Example.flatView.m_viewport.h ∧
      (fillScale Example.flatView.m_viewport.size
            (mappedSceneSize Example.trig Example.flatView)
          * (mappedSceneSize Example.trig Example.flatView).wd
          = Example.flatView.m_viewport.w ∨
        fillScale Example.flatView.m_viewport.size
            (mappedSceneSize Example.trig Example.flatView)
          * (mappedSceneSize Example.trig Example.flatView).ht
          = Example.flatView.m_viewport.h) ∧
      ∀ z : ℚ, z * (mappedSceneSize Example.trig Example.flatView).wd
          ≥ Example.flatView.m_viewport.w →
        z * (mappedSceneSize Example.trig Example.flatView).ht
          ≥ Example.flatView.m_viewport.h →
        z ≥ fillScale Example.flatView.m_viewport.size
          (mappedSceneSize Example.trig Example.flatView)) ∧
    (fillScale Example.wideView.m_viewport.size (mappedSceneSize Example.trig Example.wideView)
        * (mappedSceneSize Example.trig Example.wideView).wd
        ≥ Example.wideView.m_viewport.w * (1 - pow2 (-53)) ∧
      fillScale Example.wideView.m_viewport.size (mappedSceneSize Example.trig Example.wideView)
        * (mappedSceneSize Example.trig Example.wideView).ht
        ≥ Example.wideView.m_viewport.h * (1 - pow2 (-53)) ∧
      (fillScale Example.wideView.m_viewport.size
            (mappedSceneSize Example.trig Example.wideView)
          * (mappedSceneSize Example.trig Example.wideView).wd
          ≤ Example.wideView.m_viewport.w * (1 + pow2 (-53)) ∨
        fillScale Example.wideView.m_viewport.size
            (mappedSceneSize Example.trig Example.wideView)
          * (mappedSceneSize Example.trig Example.wideView).ht
          ≤ Example.wideView.m_viewport.h * (1 + pow2 (-53))) ∧
      ∀ z : ℚ, z * (mappedSceneSize Example.trig Example.wideView).wd
          ≥ Example.wideView.m_viewport.w →
        z * (mappedSceneSize Example.trig Example.wideView).ht
          ≥ Example.wideView.m_viewport.h →
        fillScale Example.wideView.m_viewport.size
            (mappedSceneSize Example.trig Example.wideView)
          ≤ z * (1 + pow2 (-53))) :=
  ⟨by decide!, by decide!,
    (fillScale_largest_quotient Example.trig Example.flatView { wd := 1, ht := 1 }).2.2.2.2.2.2.1
      (by decide!) (by decide!) (by decide!) (by decide!),
    (fillScale_largest_quotient Example.trig Example.wideView { wd := 1, ht := 1 }).2.2.2.2.2.2.2
      (by decide!) (by decide!) (by decide!) (by decide!)⟩

/-- C8: the rubber-band rectangle built from the origin `o` and the release
position `d` has the left edge `min o.x d.x`, the top edge `min o.y d.y`, the
width `|o.x - d.x| + 1` and the height `|o.y - d.y| + 1`, both at least `1`;
it is the same when `o` and `d` are swapped; for the origin `(10, 10)` and
the destination `(50, 40)` it is `(10, 10, 41, 31)`. -/
theorem rubberBandRect_spec (o d : QPoint) :
    (rubberBandRect o d).x = min o.xp d.xp ∧
    (rubberBandRect o d).y = min o.yp d.yp ∧
    (rubberBandRect o d).width = |o.xp - d.xp| + 1 ∧
    (rubberBandRect o d).height = |o.yp - d.yp| + 1 ∧
    1 ≤ (rubberBandRect o d).width ∧
    1 ≤ (rubberBandRect o d).height ∧
    rubberBandRect d o = rubberBandRect o d ∧
    rubberBandRect { xp := 10, yp := 10 } { xp := 50, yp := 40 } = QRect.mk4 10 10 41 31 := by
  have hw : (rubberBandRect o d).width = |o.xp - d.xp| + 1 := by
    simp only [rubberBandRect, QRect.mk4, QRect.width]; ring
  have hh : (rubberBandRect o d).height = |o.yp - d.yp| + 1 := by
    simp only [rubberBandRect, QRect.mk4, QRect.height]; ring
  refine ⟨rfl, rfl, hw, hh, ?_, ?_, ?_, by decide⟩
  · rw [hw]; have := abs_nonneg (o.xp - d.xp); omega
  · rw [hh]; have := abs_nonneg (o.yp - d.yp); omega
  · simp only [rubberBandRect, min_comm d.xp, min_comm d.yp, abs_sub_comm d.xp,
      abs_sub_comm d.yp]

/-- C9: at a right-button release during rubber-banding, a rubber-bandable
node of the list whose bounding rectangle does not intersect the rubber-band
rectangle mapped into its local space (through the inverse of its composed
transform) receives a selection event, and every selection event it receives
carries the null rectangle. -/
theorem mouseReleaseEvent_outside_selects_null (env : Env) (s : CellGLView)
    (event : QMouseEvent) (node : NodePtr)
    (hbutton : event.button = MouseButton.RightButton) (hband : s.m_rubberBanding = true)
    (hmem : node ∈ s.m_nodes) (hrb : (env.node node).rubberBandable = true)
    (hout : (env.node node).boundingRect.intersects
        (QRectF.ofQRect ((composedTransform env.trig s (env.node node)).inverted.mapRect
          (rubberBandRect s.m_originRubberBand event.pos))) = false) :
    Delivery.setSelectionArea node
        { rect := QRectF.null, mode := env.modeFromKeyboardModifiers event.modifiers }
      ∈ (mouseReleaseEvent env s event).2 ∧
    ∀ selection, Delivery.setSelectionArea node selection ∈ (mouseReleaseEvent env s event).2 →
      selection.rect = QRectF.null := by
  have hnc : ¬ (env.node node).boundingRect.contains
        (QRectF.ofQRect ((composedTransform env.trig s (env.node node)).inverted.mapRect
          (rubberBandRect s.m_originRubberBand event.pos))) = true := by
    intro hc
    rw [QRectF.contains_imp_intersects _ _ hc] at hout
    exact absurd hout (by decide)
  have hleft : ¬ event.button = MouseButton.LeftButton := by rw [hbutton]; decide
  have e := composedTransform_congr env.trig s
    { s with cursor := none, m_rubberBandRect := rubberBandRect s.m_originRubberBand event.pos }
    (env.node node) rfl rfl rfl rfl rfl rfl
  have hsel : selectNode env
      { s with cursor := none, m_rubberBandRect := rubberBandRect s.m_originRubberBand event.pos }
      event node
      = some (Delivery.setSelectionArea node
          { rect := QRectF.null, mode := env.modeFromKeyboardModifiers event.modifiers }) := by
    unfold selectNode mappedRubberBand
    rw [if_pos hrb]
    simp [e, hnc]
  unfold mouseReleaseEvent
  rw [if_neg hleft, if_pos ⟨hbutton, hband⟩]
  constructor
  · show _ ∈ List.filterMap _ _
    rw [List.mem_filterMap]
    exact ⟨node, hmem, hsel⟩
  · intro selection hin
    have hin2 : Delivery.setSelectionArea node selection ∈ List.filterMap (selectNode env
        { s with cursor := none
                 m_rubberBandRect := rubberBandRect s.m_originRubberBand event.pos } event)
        s.m_nodes := hin
    rw [List.mem_filterMap] at hin2
    obtain ⟨other, _, hother⟩ := hin2
    have hsame : other = node := by
      unfold selectNode at hother
      by_cases hr : (env.node other).rubberBandable = true
      · rw [if_pos hr] at hother
        simp only [Option.some.injEq, Delivery.setSelectionArea.injEq] at hother
        exact hother.1
      · rw [if_neg hr] at hother
        exact absurd hother (by simp)
    rw [hsame, hsel] at hother
    simp only [Option.some.injEq, Delivery.setSelectionArea.injEq, true_and] at hother
    rw [← hother]

/-- C9 at the example view with one node: the rubber band from `(200, 200)`
to `(250, 240)` does not intersect the bounding rectangle `(0,0,100,100)`, and
the node receives the null rectangle. -/
theorem mouseReleaseEvent_outside_selects_null_witness :
    Delivery.setSelectionArea 1 { rect := QRectF.null, mode := SelectionMode.NewSelection }
      ∈ (mouseReleaseEvent Example.env Example.bandingView
          (Example.mouse MouseButton.RightButton 250 240)).2 :=
  (mouseReleaseEvent_outside_selects_null Example.env Example.bandingView
    (Example.mouse MouseButton.RightButton 250 240) 1 rfl rfl (by decide) rfl
    (by decide!)).1

/-- C10: for every node list and non-null nodes `a` and `b`,
`addRenderingNode(a)` followed by `addRenderingNode(b)` succeeds and yields
the list with `a` and `b` appended in this order; a render pass over the new
list issues the draw calls of the old list and then, for visible `a` and `b`,
the draw of `a` and the draw of `b`; starting from the empty list, removing
`a` afterwards leaves exactly `[b]`. -/
theorem addRenderingNode_order (env : Env) (s : CellGLView) (a b : NodePtr)
    (ha : a ≠ 0) (hb : b ≠ 0) :
    ∃ s2, (s.addRenderingNode a).bind (fun s1 => s1.addRenderingNode b) = some s2 ∧
      s2.m_nodes = s.m_nodes ++ [a, b] ∧
      ((env.node a).visible = true → (env.node b).visible = true →
        (paintGL env s2).calls = (paintGL env s).calls ++
          [Delivery.draw a (composedTransform env.trig s (env.node a)),
           Delivery.draw b (composedTransform env.trig s (env.node b))]) ∧
      (s.m_nodes = [] →
        ∃ s3, s2.removeRenderingNode a = some s3 ∧ s3.m_nodes = [b]) := by
  refine ⟨{ s with m_nodes := s.m_nodes ++ [a, b], connections := s.connections ++ [a, b] },
    ?_, rfl, ?_, ?_⟩
  · simp [addRenderingNode, ha, hb]
  · intro hva hvb
    rw [paintGL_calls, paintGL_calls]
    simp only [drawCalls, List.filterMap_append, List.filterMap_cons, List.filterMap_nil, hva,
      hvb, if_true, QTransform.mul_identity]
    rfl
  · intro hnil
    unfold removeRenderingNode
    rw [if_neg ha]
    exact ⟨_, rfl, by simp [hnil]⟩

/-- C10 at the example view: adding the nodes `1` and `2` to the empty list
gives the list `[1, 2]`. -/
theorem addRenderingNode_order_witness :
    ∃ s2, (Example.view.addRenderingNode 1).bind (fun s1 => s1.addRenderingNode 2) = some s2 ∧
      s2.m_nodes = Example.view.m_nodes ++ [1, 2] ∧
      ((Example.env.node 1).visible = true → (Example.env.node 2).visible = true →
        (paintGL Example.env s2).calls = (paintGL Example.env Example.view).calls ++
          [Delivery.draw 1 (composedTransform Example.env.trig Example.view (Example.env.node 1)),
           Delivery.draw 2
            (composedTransform Example.env.trig Example.view (Example.env.node 2))]) ∧
      (Example.view.m_nodes = [] →
        ∃ s3, s2.removeRenderingNode 1 = some s3 ∧ s3.m_nodes = [2]) :=
  addRenderingNode_order Example.env Example.view 1 2 (by decide) (by decide)

/-! ## Lemmas on registration, input dispatch and the render pass -/

/-- The local point of the mouse handlers depends on the view only through the viewport. -/
theorem localPoint_congr (s s2 : CellGLView) (n : GraphicItemGL) (point : QPoint)
    (h : s2.m_viewport = s.m_viewport) : localPoint s2 n point = localPoint s n point := by
  simp only [localPoint, nodeTransformations, h]

/-- The node loop of the press handler delivers to the accepted nodes in list order. -/
theorem filterMap_pressNode (env : Env) (s : CellGLView) (event : QMouseEvent) (point : QPoint)
    (nodes : List NodePtr) :
    nodes.filterMap (pressNode env s event point)
      = (nodes.filter (accepts env s point)).map fun node =>
          Delivery.mousePressEvent node (newEvent event (localPoint s (env.node node) point)) := by
  induction nodes with
  | nil => rfl
  | cons n ns ih =>
    rw [List.filterMap_cons, List.filter_cons, ih]
    unfold pressNode accepts
    by_cases h1 : (env.node n).selectable = true
    · by_cases h2 : (env.node n).contains (localPoint s (env.node n) point) = true
      · simp [h1, h2]
      · simp [h1, h2]
    · simp [h1]

/-- The node loop of the release handler delivers to the accepted nodes in list order. -/
theorem filterMap_releaseNode (env : Env) (s : CellGLView) (event : QMouseEvent)
    (point : QPoint) (nodes : List NodePtr) :
    nodes.filterMap (releaseNode env s event point)
      = (nodes.filter (accepts env s point)).map fun node =>
          Delivery.mouseReleaseEvent node (newEvent event (localPoint s (env.node node) point)) := by
  induction nodes with
  | nil => rfl
  | cons n ns ih =>
    rw [List.filterMap_cons, List.filter_cons, ih]
    unfold releaseNode accepts
    by_cases h1 : (env.node n).selectable = true
    · by_cases h2 : (env.node n).contains (localPoint s (env.node n) point) = true
      · simp [h1, h2]
      · simp [h1, h2]
    · simp [h1]

/-- The node loop of the move handler delivers to the accepted nodes in list order. -/
theorem filterMap_moveNode (env : Env) (s : CellGLView) (event : QMouseEvent) (point : QPoint)
    (nodes : List NodePtr) :
    nodes.filterMap (moveNode env s event point)
      = (nodes.filter (accepts env s point)).map fun node =>
          Delivery.mouseMoveEvent node (newEvent event (localPoint s (env.node node) point)) := by
  induction nodes with
  | nil => rfl
  | cons n ns ih =>
    rw [List.filterMap_cons, List.filter_cons, ih]
    unfold moveNode accepts
    by_cases h1 : (env.node n).selectable = true
    · by_cases h2 : (env.node n).contains (localPoint s (env.node n) point) = true
      · simp [h1, h2]
      · simp [h1, h2]
    · simp [h1]

/-- The acceptance test depends on the view only through the viewport. -/
theorem accepts_congr (env : Env) (s s2 : CellGLView) (point : QPoint)
    (h : s2.m_viewport = s.m_viewport) : accepts env s2 point = accepts env s point := by
  funext node
  simp only [accepts, localPoint_congr s s2 _ point h]

/-- The draw calls of a pass are the draws of the visible nodes in list order. -/
theorem drawCalls_eq (env : Env) (s : CellGLView) (modelView : QTransform)
    (nodes : List NodePtr) :
    drawCalls env s modelView nodes
      = (nodes.filter fun node => (env.node node).visible).map fun node =>
          Delivery.draw node ((composedTransform env.trig s (env.node node)).mul modelView) := by
  induction nodes with
  | nil => rfl
  | cons n ns ih =>
    unfold drawCalls at ih ⊢
    rw [List.filterMap_cons, List.filter_cons, ih]
    by_cases h : (env.node n).visible = true
    · simp [h]
    · simp [h]

/-- The identity is a left unit of the product of transforms. -/
theorem QTransform.identity_mul (t : QTransform) : QTransform.identity.mul t = t := by
  cases t; simp [QTransform.mul, QTransform.identity]

/-- The anchor placement is the translation to the reference point of the anchor. -/
theorem anchorTransform_eq (viewSize : QSizeF) (anchor : Anchor) :
    anchorTransform viewSize anchor
      = QTransform.fromTranslate (anchorReferencePoint viewSize anchor).xp
          (anchorReferencePoint viewSize anchor).yp := by
  cases anchor <;> simp only [anchorTransform, anchorReferencePoint, mul_one_div]

/-- The transform of a node with identity local transform. -/
theorem nodeTransformations_of_identity (s : CellGLView) (node : GraphicItemGL)
    (hid : node.transform = QTransform.identity) :
    nodeTransformations s node
      = { m11 := if node.invertedX then -1 else 1, m12 := 0, m21 := 0
          m22 := if node.invertedY then -1 else 1
          dx := (anchorReferencePoint s.m_viewport.size node.anchor).xp
          dy := (anchorReferencePoint s.m_viewport.size node.anchor).yp } := by
  unfold nodeTransformations
  rw [hid, QTransform.identity_mul, anchorTransform_eq]
  cases hx : node.invertedX <;> cases hy : node.invertedY <;>
    simp [QTransform.fromTranslate, QTransform.scale] <;> norm_num

/-- The guard of `translate` does not change its result. -/
theorem QTransform.translate_eq (t : QTransform) (dx dy : ℚ) :
    t.translate dx dy
      = { m11 := t.m11, m12 := t.m12, m21 := t.m21, m22 := t.m22
          dx := t.dx + dx * t.m11 + dy * t.m21, dy := t.dy + dy * t.m22 + dx * t.m12 } := by
  unfold QTransform.translate
  split_ifs with h
  · cases t; simp [h.1, h.2]
  · rfl

/-- The guard of `scale` does not change its result. -/
theorem QTransform.scale_eq (t : QTransform) (sx sy : ℚ) :
    t.scale sx sy
      = { m11 := t.m11 * sx, m12 := t.m12 * sx, m21 := t.m21 * sy, m22 := t.m22 * sy
          dx := t.dx, dy := t.dy } := by
  unfold QTransform.scale
  split_ifs with h
  · cases t; simp [h.1, h.2]
  · rfl

/-- A product maps a point through the first factor, then through the second. -/
theorem QTransform.mapF_mul (a b : QTransform) (p : QPointF) :
    (a.mul b).mapF p = b.mapF (a.mapF p) := by
  simp only [QTransform.mapF, QTransform.mul]
  congr 1 <;> ring

/-- The guards of `sceneTransformations` do not change its result. -/
theorem sceneTransformations_eq (tr : Trig) (s : CellGLView) :
    sceneTransformations tr s
      = ((QTransform.identity.rotate tr s.m_rotate).translate s.m_panx s.m_pany).scale
          s.m_scaleX s.m_scaleY := by
  have hrot : (if s.m_rotate ≠ 0 then QTransform.identity.rotate tr s.m_rotate
      else QTransform.identity) = QTransform.identity.rotate tr s.m_rotate := by
    by_cases h : s.m_rotate = 0
    · simp [h, QTransform.rotate]
    · simp [h]
  have htr : ∀ t : QTransform,
      (if s.m_panx ≠ 0 ∨ s.m_pany ≠ 0 then t.translate s.m_panx s.m_pany else t)
        = t.translate s.m_panx s.m_pany := by
    intro t
    by_cases h : s.m_panx ≠ 0 ∨ s.m_pany ≠ 0
    · rw [if_pos h]
    · rw [if_neg h]
      have h2 : s.m_panx = 0 ∧ s.m_pany = 0 := by tauto
      simp [QTransform.translate, h2.1, h2.2]
  have hsc : ∀ t : QTransform,
      (if s.m_scaleX ≠ 1 ∨ s.m_scaleY ≠ 1 then t.scale s.m_scaleX s.m_scaleY else t)
        = t.scale s.m_scaleX s.m_scaleY := by
    intro t
    by_cases h : s.m_scaleX ≠ 1 ∨ s.m_scaleY ≠ 1
    · rw [if_pos h]
    · rw [if_neg h]
      have h2 : s.m_scaleX = 1 ∧ s.m_scaleY = 1 := by tauto
      simp [QTransform.scale, h2.1, h2.2]
  unfold sceneTransformations
  simp only [hrot, htr, hsc]

/-- The rotation by a non-zero angle maps a point by the rotation matrix. -/
theorem QTransform.rotate_identity_mapF (tr : Trig) (a : ℚ) (q : QPointF) (h : a ≠ 0) :
    (QTransform.identity.rotate tr a).mapF q
      = { xp := QTransform.cosa tr a * q.xp - QTransform.sina tr a * q.yp
          yp := QTransform.sina tr a * q.xp + QTransform.cosa tr a * q.yp } := by
  simp only [QTransform.rotate, h, if_false, QTransform.identity, QTransform.mapF,
    QPointF.mk.injEq]
  constructor <;> ring

/-- The gesture flags after one pointer event. -/
theorem PointerEvent.apply_flags (env : Env) (s : CellGLView) (ev : PointerEvent) :
    (ev.apply env s).m_panning
      = PointerEvent.buttonDown MouseButton.LeftButton s.m_panning [ev] ∧
    (ev.apply env s).m_rubberBanding
      = PointerEvent.buttonDown MouseButton.RightButton s.m_rubberBanding [ev] := by
  cases ev with
  | press event =>
    simp only [PointerEvent.apply, PointerEvent.buttonDown, mousePressEvent]
    by_cases hl : event.button = MouseButton.LeftButton
    · simp [hl]
    · by_cases hr : event.button = MouseButton.RightButton
      · cases hb : s.m_rubberBanding <;> simp [hl, hr, hb]
      · simp [hl, hr]
  | move event =>
    simp only [PointerEvent.apply, PointerEvent.buttonDown, mouseMoveEvent]
    by_cases hp : s.m_panning = true
    · by_cases hr : event.button = MouseButton.RightButton
      · cases hb : s.m_rubberBanding <;> simp [hp, hr, hb, update]
      · by_cases hl : event.button = MouseButton.LeftButton <;> simp [hp, hr, hl, update]
    · by_cases hr : event.button = MouseButton.RightButton
      · cases hb : s.m_rubberBanding <;> simp [hp, hr, hb, update]
      · by_cases hl : event.button = MouseButton.LeftButton <;> simp [hp, hr, hl, update]
  | release event =>
    simp only [PointerEvent.apply, PointerEvent.buttonDown, mouseReleaseEvent]
    by_cases hl : event.button = MouseButton.LeftButton
    · simp [hl]
    · by_cases hr : event.button = MouseButton.RightButton
      · cases hb : s.m_rubberBanding <;> simp [hl, hr, hb]
      · simp [hl, hr]

/-- The button state after a first event and the rest of a sequence. -/
theorem PointerEvent.buttonDown_cons (button : MouseButton) (down : Bool) (ev : PointerEvent)
    (evs : List PointerEvent) :
    PointerEvent.buttonDown button down (ev :: evs)
      = PointerEvent.buttonDown button (PointerEvent.buttonDown button down [ev]) evs := by
  cases ev <;> rfl

/-- While panning, a sequence of move events moves the pan by the distance
between the panning origin and the last global position. -/
theorem foldl_mouseMoveEvent_pan (env : Env) (events : List QMouseEvent) (s : CellGLView)
    (hp : s.m_panning = true) :
    (mouseMoves env s events).m_panning = true ∧
    (mouseMoves env s events).m_panx
      = s.m_panx + (((lastGlobalPos s.m_originPanning events).xp - s.m_originPanning.xp : Int) : ℚ) ∧
    (mouseMoves env s events).m_pany
      = s.m_pany + (((lastGlobalPos s.m_originPanning events).yp - s.m_originPanning.yp : Int) : ℚ) ∧
    (mouseMoves env s events).m_originPanning = lastGlobalPos s.m_originPanning events ∧
    (mouseMoves env s events).updates = s.updates + events.length := by
  induction events generalizing s with
  | nil => simp [mouseMoves, lastGlobalPos, hp]
  | cons e es ih =>
    have hstep : (mouseMoveEvent env s e).1.m_panning = true ∧
        (mouseMoveEvent env s e).1.m_panx
          = s.m_panx + ((e.globalPos.xp - s.m_originPanning.xp : Int) : ℚ) ∧
        (mouseMoveEvent env s e).1.m_pany
          = s.m_pany + ((e.globalPos.yp - s.m_originPanning.yp : Int) : ℚ) ∧
        (mouseMoveEvent env s e).1.m_originPanning = e.globalPos ∧
        (mouseMoveEvent env s e).1.updates = s.updates + 1 := by
      unfold mouseMoveEvent
      simp only [hp, if_true, update, DELTA_MOUSE_PANNING, mul_one]
      split_ifs <;> exact ⟨rfl, rfl, rfl, rfl, rfl⟩
    obtain ⟨h1, h2, h3, h4, h5⟩ := hstep
    obtain ⟨i1, i2, i3, i4, i5⟩ := ih (mouseMoveEvent env s e).1 h1
    have hm : mouseMoves env s (e :: es) = mouseMoves env (mouseMoveEvent env s e).1 es := rfl
    have hl : ∀ g : QPoint, lastGlobalPos g (e :: es) = lastGlobalPos e.globalPos es :=
      fun _ => rfl
    rw [hm, hl]
    rw [h4] at i2 i3 i4
    refine ⟨i1, ?_, ?_, i4, ?_⟩
    · rw [i2, h2]; push_cast; ring
    · rw [i3, h3]; push_cast; ring
    · rw [i5, h5, List.length_cons]; ring

/-! ## Claims on registration, geometry setters and gestures -/

/-- C11: for a non-null node, `removeRenderingNode` succeeds; it removes the
first occurrence of the node from the list and keeps the other entries in their
order; when the node does not occur in the list, the list is unchanged, and
for a node that is not connected either the whole view state is unchanged. -/
theorem removeRenderingNode_first_occurrence (s : CellGLView) (node : NodePtr)
    (hnode : node ≠ 0) :
    ∃ s1, s.removeRenderingNode node = some s1 ∧
      s1 = { s with m_nodes := s.m_nodes.erase node
                    connections := s.connections.filter (fun c => c != node) } ∧
      (∀ before after : List NodePtr, s.m_nodes = before ++ node :: after → node ∉ before →
        s1.m_nodes = before ++ after) ∧
      (node ∉ s.m_nodes → s1.m_nodes = s.m_nodes) ∧
      (node ∉ s.m_nodes → node ∉ s.connections → s1 = s) := by
  refine ⟨_, by unfold removeRenderingNode; rw [if_neg hnode], rfl, ?_, ?_, ?_⟩
  · intro before after hsplit hnot
    show s.m_nodes.erase node = before ++ after
    rw [hsplit, List.erase_append_right _ hnot, List.erase_cons_head]
  · intro hnot
    exact List.erase_of_not_mem hnot
  · intro hnot hconn
    have h1 : s.m_nodes.erase node = s.m_nodes := List.erase_of_not_mem hnot
    have h2 : s.connections.filter (fun c => c != node) = s.connections := by
      rw [List.filter_eq_self]
      intro c hc
      have : c ≠ node := fun h => hconn (h ▸ hc)
      simpa using this
    rw [h1, h2]

/-- C11 at the example view with the nodes `1` and `2`: removing `1` leaves
`[2]`, removing the absent node `3` leaves the view as it is. -/
theorem removeRenderingNode_first_occurrence_witness :
    (∃ s1, Example.twoNodeView.removeRenderingNode 1 = some s1 ∧ s1.m_nodes = [2]) ∧
    Example.twoNodeView.removeRenderingNode 3 = some Example.twoNodeView := by
  obtain ⟨s1, h1, _, h3, _, _⟩ :=
    removeRenderingNode_first_occurrence Example.twoNodeView 1 (by decide)
  obtain ⟨s3, g1, _, _, _, g5⟩ :=
    removeRenderingNode_first_occurrence Example.twoNodeView 3 (by decide)
  refine ⟨⟨s1, h1, h3 [] [2] rfl (by simp)⟩, ?_⟩
  rw [g1, g5 (by decide) (by decide)]

/-- C12, as stated, fails: `addRenderingNode(1)` twice on the empty list gives
the list `[1, 1]`, which holds the node twice. -/
theorem addRenderingNode_twice_counterexample :
    (NodeOp.run Example.view [NodeOp.addRenderingNode 1, NodeOp.addRenderingNode 1]).map
        (fun s => s.m_nodes) = some [1, 1] ∧
    ¬ ([1, 1] : List NodePtr).Nodup := by
  decide!

/-- C12, amended: a sequence of `addRenderingNode` and `removeRenderingNode`
calls with non-null nodes in which no call adds a node that the list holds at
that moment succeeds and leaves a list without duplicates, when the list had
none before. -/
theorem NodeOp.run_addsFresh_nodup (ops : List NodeOp) (s : CellGLView)
    (hnull : ∀ op ∈ ops, op.node ≠ 0) (hs : s.m_nodes.Nodup)
    (hfresh : NodeOp.addsFresh s.m_nodes ops) :
    ∃ s1, NodeOp.run s ops = some s1 ∧ s1.m_nodes.Nodup := by
  induction ops generalizing s with
  | nil => exact ⟨s, rfl, hs⟩
  | cons op ops ih =>
    have hop : op.node ≠ 0 := hnull op (List.mem_cons_self _ _)
    have hrest : ∀ o ∈ ops, o.node ≠ 0 := fun o ho => hnull o (List.mem_cons_of_mem _ ho)
    cases op with
    | addRenderingNode node =>
      obtain ⟨hnew, hf⟩ := hfresh
      have hstep : NodeOp.run s (NodeOp.addRenderingNode node :: ops)
          = NodeOp.run { s with m_nodes := s.m_nodes ++ [node]
                                connections := s.connections ++ [node] } ops := by
        simp only [NodeOp.run, NodeOp.apply, CellGLView.addRenderingNode]
        rw [if_neg (show node ≠ 0 from hop)]
        rfl
      rw [hstep]
      apply ih _ hrest
      · show (s.m_nodes ++ [node]).Nodup
        rw [List.nodup_append]
        refine ⟨hs, List.nodup_singleton _, ?_⟩
        intro a ha hb
        rw [List.mem_singleton] at hb
        exact hnew (hb ▸ ha)
      · exact hf
    | removeRenderingNode node =>
      have hstep : NodeOp.run s (NodeOp.removeRenderingNode node :: ops)
          = NodeOp.run { s with m_nodes := s.m_nodes.erase node
                                connections := s.connections.filter (fun c => c != node) }
              ops := by
        simp only [NodeOp.run, NodeOp.apply, CellGLView.removeRenderingNode]
        rw [if_neg (show node ≠ 0 from hop)]
        rfl
      rw [hstep]
      apply ih _ hrest
      · exact hs.erase node
      · exact hfresh

/-- C12, amended, at the example view: add `1`, add `2`, remove `1`, add `1`
again. -/
theorem NodeOp.run_addsFresh_nodup_witness :
    ∃ s1, NodeOp.run Example.view
        [NodeOp.addRenderingNode 1, NodeOp.addRenderingNode 2,
         NodeOp.removeRenderingNode 1, NodeOp.addRenderingNode 1] = some s1 ∧
      s1.m_nodes.Nodup :=
  NodeOp.run_addsFresh_nodup
    [NodeOp.addRenderingNode 1, NodeOp.addRenderingNode 2,
     NodeOp.removeRenderingNode 1, NodeOp.addRenderingNode 1]
    Example.view (by decide) (by decide) (by simp [NodeOp.addsFresh, Example.view])

/-- C13, at a failing input: the nodes `1` and `2` are registered and alive;
after the destructor of the view neither of them is alive. -/
theorem destructor_deletes_nodes :
    Example.allAlive 1 = true ∧ Example.allAlive 2 = true ∧
    Example.twoNodeView.m_nodes = [1, 2] ∧
    Example.twoNodeView.destructor Example.allAlive 1 = false ∧
    Example.twoNodeView.destructor Example.allAlive 2 = false := by
  refine ⟨rfl, rfl, rfl, ?_, ?_⟩
  · decide
  · decide

/-- C14: `setViewPort(r)` stores `r` when `r` differs from the stored viewport
and has positive width and height, and leaves the whole state unchanged when
`r` is degenerate or inverted or equals the stored viewport; in every case all
fields other than the viewport (scene, zoom, scale factors, pan, rotation, node
list, gesture flags, requested redraws) are unchanged.  The same holds for
`setScene(r)` and the scene rectangle. -/
theorem setViewPort_setScene_spec (s : CellGLView) (r : QRectF) :
    (s.m_viewport ≠ r → 0 < r.w → 0 < r.h → s.setViewPort r = { s with m_viewport := r }) ∧
    (¬ (0 < r.w ∧ 0 < r.h) → s.setViewPort r = s) ∧
    (s.m_viewport = r → s.setViewPort r = s) ∧
    s.setViewPort r = { s with m_viewport := (s.setViewPort r).m_viewport } ∧
    (s.m_scene ≠ r → 0 < r.w → 0 < r.h → s.setScene r = { s with m_scene := r }) ∧
    (¬ (0 < r.w ∧ 0 < r.h) → s.setScene r = s) ∧
    (s.m_scene = r → s.setScene r = s) ∧
    s.setScene r = { s with m_scene := (s.setScene r).m_scene } := by
  unfold setViewPort setScene QRectF.isValid
  refine ⟨?_, ?_, ?_, ?_, ?_, ?_, ?_, ?_⟩
  · intro h1 h2 h3; simp [h1, h2, h3]
  · intro h; rw [if_neg]; simp only [Bool.and_eq_true, decide_eq_true_eq]; tauto
  · intro h; simp [h]
  · split_ifs <;> rfl
  · intro h1 h2 h3; simp [h1, h2, h3]
  · intro h; rw [if_neg]; simp only [Bool.and_eq_true, decide_eq_true_eq]; tauto
  · intro h; simp [h]
  · split_ifs <;> rfl

/-- C14 at the example view: the viewport `(0,0,1024,768)` is stored, the
inverted scene `(0,0,-5,10)` is rejected. -/
theorem setViewPort_setScene_spec_witness :
    Example.view.setViewPort { xp := 0, yp := 0, w := 1024, h := 768 }
      = { Example.view with m_viewport := { xp := 0, yp := 0, w := 1024, h := 768 } } ∧
    Example.view.setScene { xp := 0, yp := 0, w := -5, h := 10 } = Example.view :=
  ⟨(setViewPort_setScene_spec Example.view { xp := 0, yp := 0, w := 1024, h := 768 }).1
      (by decide!) (by norm_num) (by norm_num),
   (setViewPort_setScene_spec Example.view { xp := 0, yp := 0, w := -5, h := 10 }).2.2.2.2.2.1
      (by norm_num)⟩

/-- C15, as stated, fails: a left-button press followed by a right-button
press, with no release in between, leaves both `m_panning` and
`m_rubberBanding` true. -/
theorem press_other_button_counterexample :
    ([PointerEvent.press (Example.mouse MouseButton.LeftButton 10 10),
      PointerEvent.press (Example.mouse MouseButton.RightButton 10 10)].foldl
        (PointerEvent.apply Example.env) Example.view).m_panning = true ∧
    ([PointerEvent.press (Example.mouse MouseButton.LeftButton 10 10),
      PointerEvent.press (Example.mouse MouseButton.RightButton 10 10)].foldl
        (PointerEvent.apply Example.env) Example.view).m_rubberBanding = true := by
  decide!

/-- C15, amended: the two gesture flags are kept per button.  After every
sequence of pointer press, move and release events, `m_panning` is true
exactly when the last press or release of the left button was a press, and
`m_rubberBanding` is true exactly when the last press or release of the right
button was a press (the flag keeps its value when the sequence has no such
event); in particular no event of one button changes the flag of the other. -/
theorem gesture_flags_per_button (env : Env) (events : List PointerEvent) (s : CellGLView) :
    (events.foldl (PointerEvent.apply env) s).m_panning
      = PointerEvent.buttonDown MouseButton.LeftButton s.m_panning events ∧
    (events.foldl (PointerEvent.apply env) s).m_rubberBanding
      = PointerEvent.buttonDown MouseButton.RightButton s.m_rubberBanding events := by
  induction events generalizing s with
  | nil => exact ⟨rfl, rfl⟩
  | cons ev evs ih =>
    rw [List.foldl_cons, PointerEvent.buttonDown_cons MouseButton.LeftButton,
      PointerEvent.buttonDown_cons MouseButton.RightButton,
      ← (PointerEvent.apply_flags env s ev).1, ← (PointerEvent.apply_flags env s ev).2]
    exact ih _

/-! ## Claims on dispatch, the render pass and the transforms -/

/-- Fan-out of the press and the release handler: for an event of the left
button each of them delivers the event to every node of the list that is
selectable and whose `contains` accepts the device point mapped into its
local space, in list order, once per list entry, and to no other node; the
delivered event carries that local point. -/
theorem mousePressRelease_fan_out (env : Env) (s : CellGLView) (event : QMouseEvent)
    (hbutton : event.button = MouseButton.LeftButton) :
    (s.mousePressEvent env event).2
      = (s.m_nodes.filter (accepts env s event.pos)).map (fun node =>
          Delivery.mousePressEvent node
            (newEvent event (localPoint s (env.node node) event.pos))) ∧
    (s.mouseReleaseEvent env event).2
      = (s.m_nodes.filter (accepts env s event.pos)).map (fun node =>
          Delivery.mouseReleaseEvent node
            (newEvent event (localPoint s (env.node node) event.pos))) := by
  refine ⟨?_, ?_⟩
  · unfold mousePressEvent
    rw [if_pos hbutton]
    simp only [filterMap_pressNode]
    rw [accepts_congr env s { s with m_panning := true, m_originPanning := event.globalPos }
      event.pos rfl]
    simp only [localPoint_congr s { s with m_panning := true, m_originPanning := event.globalPos }
      _ event.pos rfl]
  · unfold mouseReleaseEvent
    rw [if_pos hbutton]
    simp only [filterMap_releaseNode]
    rw [accepts_congr env s { s with cursor := none, m_panning := false } event.pos rfl]
    simp only [localPoint_congr s { s with cursor := none, m_panning := false } _ event.pos rfl]

/-- The move handler delivers an event to the nodes only when `button()` of
the event is the left button (line 405): then to every node of the list that
is selectable and whose `contains` accepts the mapped point, in list order;
for every other value of `button()` to no node. -/
theorem mouseMoveEvent_deliveries (env : Env) (s : CellGLView) (event : QMouseEvent) :
    (s.mouseMoveEvent env event).2
      = if event.button = MouseButton.LeftButton then
          (s.m_nodes.filter (accepts env s event.pos)).map (fun node =>
            Delivery.mouseMoveEvent node
              (newEvent event (localPoint s (env.node node) event.pos)))
        else [] := by
  have key : ∀ s1 : CellGLView, s1.m_viewport = s.m_viewport → s1.m_nodes = s.m_nodes →
      (if event.button = MouseButton.RightButton ∧ s1.m_rubberBanding then
          (({ s1 with m_rubberBandRect := rubberBandRect s1.m_originRubberBand event.pos },
            []) : CellGLView × List Delivery)
        else if event.button = MouseButton.LeftButton then
          (s1, s1.m_nodes.filterMap (moveNode env s1 event event.pos))
        else (s1, [])).2
      = if event.button = MouseButton.LeftButton then
          (s.m_nodes.filter (accepts env s event.pos)).map (fun node =>
            Delivery.mouseMoveEvent node
              (newEvent event (localPoint s (env.node node) event.pos)))
        else [] := by
    intro s1 hv hn
    by_cases hbutton : event.button = MouseButton.LeftButton
    · have hright : ¬ event.button = MouseButton.RightButton := by rw [hbutton]; decide
      rw [if_neg (fun h => hright h.1), if_pos hbutton, if_pos hbutton]
      simp only [filterMap_moveNode, hn]
      rw [accepts_congr env s s1 event.pos hv]
      simp only [localPoint_congr s s1 _ event.pos hv]
    · rw [if_neg hbutton]
      split_ifs <;> rfl
  exact key _ (by split_ifs <;> rfl) (by split_ifs <;> rfl)

/-- C16 fails for move events.  Qt reports `Qt::NoButton` as `button()` of
every mouse move event, and `mouseMoveEvent` enters its node loop only when
`button()` is the left button (line 405).  At the example view with the nodes
`1` and `2`, which both accept the point `(10, 10)`, the press and the release
of the left button at `(10, 10)` are delivered to `1` and then to `2`, and the
move event of a drag with the left button held down at `(10, 10)` is delivered
to no node, before and after the press. -/
theorem mouseMoveEvent_drag_not_delivered :
    (Example.drag 10 10).button = MouseButton.NoButton ∧
    accepts Example.env Example.twoNodeView (Example.drag 10 10).pos 1 = true ∧
    accepts Example.env Example.twoNodeView (Example.drag 10 10).pos 2 = true ∧
    (Example.twoNodeView.mousePressEvent Example.env
        (Example.mouse MouseButton.LeftButton 10 10)).2
      = [Delivery.mousePressEvent 1
          (newEvent (Example.mouse MouseButton.LeftButton 10 10) { xp := 10, yp := 10 }),
         Delivery.mousePressEvent 2
          (newEvent (Example.mouse MouseButton.LeftButton 10 10) { xp := 10, yp := 10 })] ∧
    (Example.twoNodeView.mouseReleaseEvent Example.env
        (Example.mouse MouseButton.LeftButton 10 10)).2
      = [Delivery.mouseReleaseEvent 1
          (newEvent (Example.mouse MouseButton.LeftButton 10 10) { xp := 10, yp := 10 }),
         Delivery.mouseReleaseEvent 2
          (newEvent (Example.mouse MouseButton.LeftButton 10 10) { xp := 10, yp := 10 })] ∧
    (Example.twoNodeView.mouseMoveEvent Example.env (Example.drag 10 10)).2 = [] ∧
    ((Example.twoNodeView.mousePressEvent Example.env
        (Example.mouse MouseButton.LeftButton 10 10)).1.mouseMoveEvent Example.env
      (Example.drag 10 10)).2 = [] := by
  refine ⟨rfl, ?_, ?_, ?_, ?_, ?_, ?_⟩
  · decide!
  · decide!
  · decide!
  · decide!
  · decide!
  · decide!

/-- C17: the render pass issues one draw call for every visible entry of the
node list, in list order, and none for an invisible node; the model-view
matrix of the draw of a node is `nodeTransformations(node)`, multiplied by
`sceneTransformations()` exactly when the node is transformable, where
`nodeTransformations(node)` is the local transform of the node times the
anchor placement; the loop leaves the model-view matrix and its stack as they
were before the pass, for every painter. -/
theorem paintGL_spec (env : Env) (s : CellGLView) :
    (paintGL env s).calls
      = (s.m_nodes.filter fun node => (env.node node).visible).map (fun node =>
          Delivery.draw node
            (if (env.node node).transformable then
              (nodeTransformations s (env.node node)).mul (sceneTransformations env.trig s)
            else nodeTransformations s (env.node node))) ∧
    (∀ node, nodeTransformations s (env.node node)
      = (env.node node).transform.mul
          (if (env.node node).invertedX ∨ (env.node node).invertedY then
            (anchorTransform s.m_viewport.size (env.node node).anchor).scale
              (if (env.node node).invertedX then -1 else 1)
              (if (env.node node).invertedY then -1 else 1)
          else anchorTransform s.m_viewport.size (env.node node).anchor)) ∧
    (∀ painter : QGLPainter,
      (s.m_nodes.foldl (paintNode env s) painter).saved = painter.saved ∧
      (s.m_nodes.foldl (paintNode env s) painter).modelView = painter.modelView) ∧
    (paintGL env s).saved = [] ∧
    (paintGL env s).modelView = QTransform.identity := by
  refine ⟨?_, fun node => rfl, fun painter => ?_, ?_, ?_⟩
  · rw [paintGL_calls, drawCalls_eq]
    simp only [QTransform.mul_identity, composedTransform]
  · rw [foldl_paintNode]
    exact ⟨rfl, rfl⟩
  · unfold paintGL
    rw [foldl_paintNode]
    rfl
  · unfold paintGL
    rw [foldl_paintNode]
    rfl

/-- C18: for a node with identity local transform, whatever its inversion
flags, `nodeTransformations` maps the local origin to the reference point of
the anchor in the viewport, and a local point `(x, y)` to the reference point
plus `(sx * x, sy * y)` with `sx = -1` when the node is inverted in `x`, else
`1`, and `sy` likewise. -/
theorem nodeTransformations_anchor (s : CellGLView) (node : GraphicItemGL) (p : QPointF)
    (hid : node.transform = QTransform.identity) :
    (nodeTransformations s node).mapF { xp := 0, yp := 0 }
      = anchorReferencePoint s.m_viewport.size node.anchor ∧
    (nodeTransformations s node).mapF p
      = { xp := (anchorReferencePoint s.m_viewport.size node.anchor).xp
                  + (if node.invertedX then -1 else 1) * p.xp
          yp := (anchorReferencePoint s.m_viewport.size node.anchor).yp
                  + (if node.invertedY then -1 else 1) * p.yp } := by
  rw [nodeTransformations_of_identity s node hid]
  constructor
  · simp [QTransform.mapF]
  · simp only [QTransform.mapF, zero_mul, add_zero, zero_add]
    congr 1 <;> ring

/-- C18 at the example view for a node anchored at the centre and mirrored in
`x`: the origin goes to `(400, 300)`, the point `(10, 20)` to `(390, 320)`. -/
theorem nodeTransformations_anchor_witness :
    (nodeTransformations Example.view Example.mirroredItem).mapF { xp := 0, yp := 0 }
      = { xp := 400, yp := 300 } ∧
    (nodeTransformations Example.view Example.mirroredItem).mapF { xp := 10, yp := 20 }
      = { xp := 390, yp := 320 } :=
  ⟨(nodeTransformations_anchor Example.view Example.mirroredItem { xp := 0, yp := 0 }
      rfl).1.trans (by decide!),
   (nodeTransformations_anchor Example.view Example.mirroredItem { xp := 10, yp := 20 }
      rfl).2.trans (by decide!)⟩

/-- C19: the scene transform is the product of the scaling by the scale
factors, the translation by the pan and the rotation by the rotation angle, in
this order: a point is first scaled, then translated, then rotated about the
origin.  Without rotation it maps `(x, y)` to
`(scaleX * x + panx, scaleY * y + pany)`, and it is the identity when
moreover the pan is `(0, 0)` and the scale factors are `(1, 1)`. -/
theorem sceneTransformations_spec (tr : Trig) (s : CellGLView) (p : QPointF) :
    sceneTransformations tr s
      = (QTransform.mk s.m_scaleX 0 0 s.m_scaleY 0 0).mul
          ((QTransform.fromTranslate s.m_panx s.m_pany).mul
            (QTransform.identity.rotate tr s.m_rotate)) ∧
    (sceneTransformations tr s).mapF p
      = (QTransform.identity.rotate tr s.m_rotate).mapF
          { xp := s.m_scaleX * p.xp + s.m_panx, yp := s.m_scaleY * p.yp + s.m_pany } ∧
    (s.m_rotate ≠ 0 →
      (sceneTransformations tr s).mapF p
        = { xp := QTransform.cosa tr s.m_rotate * (s.m_scaleX * p.xp + s.m_panx)
                  - QTransform.sina tr s.m_rotate * (s.m_scaleY * p.yp + s.m_pany)
            yp := QTransform.sina tr s.m_rotate * (s.m_scaleX * p.xp + s.m_panx)
                  + QTransform.cosa tr s.m_rotate * (s.m_scaleY * p.yp + s.m_pany) }) ∧
    (s.m_rotate = 0 →
      (sceneTransformations tr s).mapF p
        = { xp := s.m_scaleX * p.xp + s.m_panx, yp := s.m_scaleY * p.yp + s.m_pany }) ∧
    (s.m_rotate = 0 → s.m_panx = 0 → s.m_pany = 0 → s.m_scaleX = 1 → s.m_scaleY = 1 →
      sceneTransformations tr s = QTransform.identity) := by
  have hmat : sceneTransformations tr s
      = (QTransform.mk s.m_scaleX 0 0 s.m_scaleY 0 0).mul
          ((QTransform.fromTranslate s.m_panx s.m_pany).mul
            (QTransform.identity.rotate tr s.m_rotate)) := by
    rw [sceneTransformations_eq, QTransform.scale_eq, QTransform.translate_eq]
    simp only [QTransform.mul, QTransform.fromTranslate, QTransform.mk.injEq]
    refine ⟨?_, ?_, ?_, ?_, ?_, ?_⟩ <;> ring
  have hmap : (sceneTransformations tr s).mapF p
      = (QTransform.identity.rotate tr s.m_rotate).mapF
          { xp := s.m_scaleX * p.xp + s.m_panx, yp := s.m_scaleY * p.yp + s.m_pany } := by
    rw [hmat, QTransform.mapF_mul, QTransform.mapF_mul]
    congr 1
    simp only [QTransform.mapF, QTransform.fromTranslate, QPointF.mk.injEq]
    constructor <;> ring
  refine ⟨hmat, hmap, ?_, ?_, ?_⟩
  · intro hr
    rw [hmap, QTransform.rotate_identity_mapF tr s.m_rotate _ hr]
  · intro hr
    rw [sceneTransformations_of_rotate_zero tr s hr]
    simp only [QTransform.mapF, QPointF.mk.injEq]
    constructor <;> ring
  · intro hr hx hy hsx hsy
    rw [sceneTransformations_of_rotate_zero tr s hr, hx, hy, hsx, hsy]
    rfl

/-- C19 at the example view panned by `(5, 0)`: the point `(10, 10)` is mapped
to `(15, 10)`. -/
theorem sceneTransformations_spec_witness :
    (sceneTransformations Example.trig Example.pannedView).mapF { xp := 10, yp := 10 }
      = { xp := 15, yp := 10 } :=
  ((sceneTransformations_spec Example.trig Example.pannedView { xp := 10, yp := 10 }).2.2.2.1
    rfl).trans (by decide!)

/-- C20: after a left-button press at the global position `g0` and any
sequence of move events, the pan is the pan before the press plus the
difference between the last global position (`g0` when there is no move) and
`g0` on each axis, the panning origin is the last global position, and every
move has requested one redraw; a move while not panning leaves the pan
unchanged and requests no redraw. -/
theorem pan_tracks_pointer (env : Env) (s : CellGLView) (press : QMouseEvent)
    (moves : List QMouseEvent) (hbutton : press.button = MouseButton.LeftButton) :
    (mouseMoves env (s.mousePressEvent env press).1 moves).m_panx
      = s.m_panx
        + (((lastGlobalPos press.globalPos moves).xp - press.globalPos.xp : Int) : ℚ) ∧
    (mouseMoves env (s.mousePressEvent env press).1 moves).m_pany
      = s.m_pany
        + (((lastGlobalPos press.globalPos moves).yp - press.globalPos.yp : Int) : ℚ) ∧
    (mouseMoves env (s.mousePressEvent env press).1 moves).m_originPanning
      = lastGlobalPos press.globalPos moves ∧
    (mouseMoves env (s.mousePressEvent env press).1 moves).updates
      = s.updates + moves.length ∧
    (∀ (idle : CellGLView) (move : QMouseEvent), idle.m_panning = false →
      (idle.mouseMoveEvent env move).1.m_panx = idle.m_panx ∧
      (idle.mouseMoveEvent env move).1.m_pany = idle.m_pany ∧
      (idle.mouseMoveEvent env move).1.updates = idle.updates) := by
  have hpress : (s.mousePressEvent env press).1
      = { s with m_panning := true, m_originPanning := press.globalPos } := by
    unfold mousePressEvent
    rw [if_pos hbutton]
  obtain ⟨_, h2, h3, h4, h5⟩ :=
    foldl_mouseMoveEvent_pan env moves (s.mousePressEvent env press).1 (by rw [hpress])
  rw [hpress] at h2 h3 h4 h5 ⊢
  refine ⟨h2, h3, h4, h5, ?_⟩
  intro idle move hidle
  unfold mouseMoveEvent
  simp only [hidle, Bool.false_eq_true, if_false]
  split_ifs <;> exact ⟨rfl, rfl, rfl⟩

/-- C20 at the example view: press at `(100, 100)`, moves to `(110, 105)` and
to `(90, 120)`; the pan is `(-10, 20)` and two redraws are requested. -/
theorem pan_tracks_pointer_witness :
    (mouseMoves Example.env
      (Example.view.mousePressEvent Example.env
        (Example.mouse MouseButton.LeftButton 100 100)).1
      [Example.mouse MouseButton.NoButton 110 105,
       Example.mouse MouseButton.NoButton 90 120]).m_panx = -10 ∧
    (mouseMoves Example.env
      (Example.view.mousePressEvent Example.env
        (Example.mouse MouseButton.LeftButton 100 100)).1
      [Example.mouse MouseButton.NoButton 110 105,
       Example.mouse MouseButton.NoButton 90 120]).m_pany = 20 ∧
    (mouseMoves Example.env
      (Example.view.mousePressEvent Example.env
        (Example.mouse MouseButton.LeftButton 100 100)).1
      [Example.mouse MouseButton.NoButton 110 105,
       Example.mouse MouseButton.NoButton 90 120]).updates = 2 :=
  ⟨(pan_tracks_pointer Example.env Example.view (Example.mouse MouseButton.LeftButton 100 100)
      [Example.mouse MouseButton.NoButton 110 105, Example.mouse MouseButton.NoButton 90 120]
      rfl).1.trans (by decide!),
   (pan_tracks_pointer Example.env Example.view (Example.mouse MouseButton.LeftButton 100 100)
      [Example.mouse MouseButton.NoButton 110 105, Example.mouse MouseButton.NoButton 90 120]
      rfl).2.1.trans (by decide!),
   (pan_tracks_pointer Example.env Example.view (Example.mouse MouseButton.LeftButton 100 100)
      [Example.mouse MouseButton.NoButton 110 105, Example.mouse MouseButton.NoButton 90 120]
      rfl).2.2.2.1.trans (by decide!)⟩

/-! ## Lemmas on the recompute at unit zoom and on the rubber-band release -/

/-- The node loop of the rubber-band release delivers one selection event to
every rubber-bandable entry of the list, in list order. -/
theorem filterMap_selectNode (env : Env) (s : CellGLView) (event : QMouseEvent)
    (nodes : List NodePtr) :
    nodes.filterMap (selectNode env s event)
      = (nodes.filter fun node => (env.node node).rubberBandable).map fun node =>
          Delivery.setSelectionArea node
            { rect := selectionRect env.trig s s.m_rubberBandRect (env.node node)
              mode := env.modeFromKeyboardModifiers event.modifiers } := by
  induction nodes with
  | nil => rfl
  | cons n ns ih =>
    rw [List.filterMap_cons, List.filter_cons, ih]
    unfold selectNode selectionRect mappedRubberBand
    by_cases h1 : (env.node n).rubberBandable = true
    · by_cases h2 : (env.node n).boundingRect.contains
          (QRectF.ofQRect ((composedTransform env.trig s (env.node n)).inverted.mapRect
            s.m_rubberBandRect)) = true
      · simp [h1, h2]
      · simp [h1, h2]
    · simp [h1]

/-- The number of selection events for a node among the events delivered to
the entries of a list that pass a test. -/
theorem countP_isSelectionOf (node : NodePtr) (p : NodePtr → Bool)
    (g : NodePtr → SelectionEvent) (nodes : List NodePtr) :
    ((nodes.filter p).map fun n => Delivery.setSelectionArea n (g n)).countP
        (Delivery.isSelectionOf node)
      = if p node then nodes.count node else 0 := by
  induction nodes with
  | nil => simp
  | cons n ns ih =>
    by_cases hp : p n = true
    · rw [List.filter_cons_of_pos hp, List.map_cons, List.countP_cons, ih, List.count_cons]
      by_cases hn : n = node
      · subst hn
        simp [Delivery.isSelectionOf, hp]
      · have hn2 : (n == node) = false := by simpa using hn
        simp [Delivery.isSelectionOf, hn2]
    · rw [List.filter_cons_of_neg hp, ih, List.count_cons]
      by_cases hn : n = node
      · subst hn
        simp [hp]
      · have hn2 : (n == node) = false := by simpa using hn
        simp [hn2]

/-! ## Claims on the recompute at unit zoom and on the rubber-band release -/

/-- C22, as stated, fails: the node `1` is registered twice; the right-button
release at `(90, 80)` of a rubber band that started at `(50, 50)` delivers two
selection events to it, not exactly one. -/
theorem mouseReleaseEvent_duplicate_counterexample :
    (NodeOp.run Example.view [NodeOp.addRenderingNode 1, NodeOp.addRenderingNode 1]).map
        (fun s =>
          (s.mousePressEvent Example.env (Example.mouse MouseButton.RightButton 50 50)).1)
      = some Example.twiceView ∧
    (Example.twiceView.mouseReleaseEvent Example.env
        (Example.mouse MouseButton.RightButton 90 80)).2
      = [Delivery.setSelectionArea 1
          { rect := { xp := 50, yp := 50, w := 41, h := 31 }
            mode := SelectionMode.NewSelection },
         Delivery.setSelectionArea 1
          { rect := { xp := 50, yp := 50, w := 41, h := 31 }
            mode := SelectionMode.NewSelection }] ∧
    (Example.twiceView.mouseReleaseEvent Example.env
        (Example.mouse MouseButton.RightButton 90 80)).2.countP (Delivery.isSelectionOf 1)
      = 2 := by
  decide!

/-- C22, amended: at a right-button release during rubber-banding, every
rubber-bandable entry of the node list receives exactly one selection event,
in list order, and no other call is made, so a node receives as many selection
events as it has entries in the list; the rectangle of the event is the mapped
rubber-band rectangle unchanged when the bounding rectangle of the node
contains it, and the null rectangle otherwise; afterwards `m_rubberBanding` is
false and `m_rubberBandRect` is null.  A right-button release while not
rubber-banding delivers nothing and changes nothing. -/
theorem mouseReleaseEvent_rubberBand (env : Env) (s : CellGLView) (event : QMouseEvent)
    (hbutton : event.button = MouseButton.RightButton) :
    (s.m_rubberBanding = true →
      (s.mouseReleaseEvent env event).2
        = (s.m_nodes.filter fun node => (env.node node).rubberBandable).map (fun node =>
            Delivery.setSelectionArea node
              { rect := selectionRect env.trig s
                  (rubberBandRect s.m_originRubberBand event.pos) (env.node node)
                mode := env.modeFromKeyboardModifiers event.modifiers }) ∧
      (s.mouseReleaseEvent env event).1.m_rubberBanding = false ∧
      (s.mouseReleaseEvent env event).1.m_rubberBandRect = QRect.null) ∧
    (∀ (band : QRect) (node : GraphicItemGL),
      (node.boundingRect.contains
          (QRectF.ofQRect ((composedTransform env.trig s node).inverted.mapRect band)) = true →
        selectionRect env.trig s band node
          = QRectF.ofQRect ((composedTransform env.trig s node).inverted.mapRect band)) ∧
      (node.boundingRect.contains
          (QRectF.ofQRect ((composedTransform env.trig s node).inverted.mapRect band)) = false →
        selectionRect env.trig s band node = QRectF.null)) ∧
    (s.m_rubberBanding = true → ∀ node : NodePtr,
      (s.mouseReleaseEvent env event).2.countP (Delivery.isSelectionOf node)
        = if (env.node node).rubberBandable then s.m_nodes.count node else 0) ∧
    (s.m_rubberBanding = false → s.mouseReleaseEvent env event = (s, [])) := by
  have hleft : ¬ event.button = MouseButton.LeftButton := by rw [hbutton]; decide
  have hcalls : s.m_rubberBanding = true →
      (s.mouseReleaseEvent env event).2
        = (s.m_nodes.filter fun node => (env.node node).rubberBandable).map (fun node =>
            Delivery.setSelectionArea node
              { rect := selectionRect env.trig s
                  (rubberBandRect s.m_originRubberBand event.pos) (env.node node)
                mode := env.modeFromKeyboardModifiers event.modifiers }) := by
    intro hband
    unfold mouseReleaseEvent
    rw [if_neg hleft, if_pos ⟨hbutton, hband⟩]
    show List.filterMap _ _ = _
    rw [filterMap_selectNode]
    congr 1
  refine ⟨fun hband => ⟨hcalls hband, ?_, ?_⟩, fun band node => ⟨fun h => ?_, fun h => ?_⟩,
    fun hband node => ?_, fun hidle => ?_⟩
  · unfold mouseReleaseEvent
    rw [if_neg hleft, if_pos ⟨hbutton, hband⟩]
  · unfold mouseReleaseEvent
    rw [if_neg hleft, if_pos ⟨hbutton, hband⟩]
  · unfold selectionRect
    rw [if_pos h]
  · unfold selectionRect
    rw [if_neg (by rw [h]; decide)]
  · rw [hcalls hband]
    exact countP_isSelectionOf node (fun n => (env.node n).rubberBandable) _ s.m_nodes
  · unfold mouseReleaseEvent
    rw [if_neg hleft, if_neg (by rw [hidle]; simp)]

/-- C22, amended, at the example view with one node and a rubber band that
started at `(50, 50)`: the release at `(90, 80)` delivers the rectangle
`(50, 50, 41, 31)`, which the bounding rectangle `(0,0,100,100)` contains; the
release at `(150, 150)` delivers the null rectangle, though the rubber band
overlaps the bounding rectangle. -/
theorem mouseReleaseEvent_rubberBand_witness :
    (Example.overlapView.mouseReleaseEvent Example.env
        (Example.mouse MouseButton.RightButton 90 80)).2
      = [Delivery.setSelectionArea 1
          { rect := { xp := 50, yp := 50, w := 41, h := 31 }
            mode := SelectionMode.NewSelection }] ∧
    (Example.overlapView.mouseReleaseEvent Example.env
        (Example.mouse MouseButton.RightButton 150 150)).2
      = [Delivery.setSelectionArea 1
          { rect := QRectF.null, mode := SelectionMode.NewSelection }] ∧
    Example.item.boundingRect.intersects
      (QRectF.ofQRect ((composedTransform Example.trig Example.overlapView
        Example.item).inverted.mapRect
          (rubberBandRect { xp := 50, yp := 50 } { xp := 150, yp := 150 }))) = true :=
  ⟨((mouseReleaseEvent_rubberBand Example.env Example.overlapView
      (Example.mouse MouseButton.RightButton 90 80) rfl).1 rfl).1.trans (by decide!),
   ((mouseReleaseEvent_rubberBand Example.env Example.overlapView
      (Example.mouse MouseButton.RightButton 150 150) rfl).1 rfl).1.trans (by decide!),
   by decide!⟩

end STViewer
